import Mathlib

/-!
Verification of the Thyrotoxic Periodic Paralysis monitoring-data engine
(`scripts/tpp_utils.py`, `scripts/analyze_data.py`) against its design
specification.  The Python code is shallowly embedded: pandas data frames
become explicit columnar values, records become association lists, floating
point numbers become exact rationals, and the numpy global random generator
becomes an explicit stream of raw draws that is threaded through the
generators.  Fallible code paths (`ZeroDivisionError`, `KeyError`,
`TypeError`) are made explicit with `Except`.
-/

/-- Exact rational arithmetic used to model Python/numpy floating-point
computation.  Fractions are deliberately kept unnormalized (no gcd) so that
every operation reduces inside the Lean kernel; all constructors and
operations keep the denominator positive.  `Frac.toRat` gives the
mathematical value.  Python's IEEE rounding is not modelled: arithmetic here
is exact, which is the standard idealization for verifying the algorithmic
content of the source. -/
structure Frac where
  num : Int
  den : Int
deriving DecidableEq, Repr

/-- Embed an integer as a fraction. -/
def Frac.ofInt (n : Int) : Frac := ⟨n, 1⟩

/-- Zero. -/
def Frac.zero : Frac := ⟨0, 1⟩

/-- Addition on unnormalized fractions. -/
def Frac.add (a b : Frac) : Frac := ⟨a.num * b.den + b.num * a.den, a.den * b.den⟩

/-- Subtraction on unnormalized fractions. -/
def Frac.sub (a b : Frac) : Frac := ⟨a.num * b.den - b.num * a.den, a.den * b.den⟩

/-- Multiplication on unnormalized fractions. -/
def Frac.mul (a b : Frac) : Frac := ⟨a.num * b.num, a.den * b.den⟩

/-- Squaring. -/
def Frac.sq (a : Frac) : Frac := a.mul a

/-- Division.  Division by a fraction whose numerator is zero returns zero:
this single convention models numpy's `0/0 -> nan` together with the fact
that every comparison against nan is false (a zero result below is never
strictly greater than a positive threshold, exactly as nan is not).  The
sign of the divisor's numerator is absorbed so the denominator stays
positive. -/
def Frac.div (a b : Frac) : Frac :=
  if b.num = 0 then ⟨0, 1⟩
  else if 0 < b.num then ⟨a.num * b.den, a.den * b.num⟩
  else ⟨-(a.num * b.den), -(a.den * b.num)⟩

/-- Strict order, by cross multiplication (meaningful when denominators are
positive, which every operation above preserves). -/
def Frac.lt (a b : Frac) : Prop := a.num * b.den < b.num * a.den

instance : DecidableRel Frac.lt := fun a b => inferInstanceAs (Decidable (_ < _))

/-- Non-strict order, by cross multiplication. -/
def Frac.le (a b : Frac) : Prop := a.num * b.den ≤ b.num * a.den

instance : DecidableRel Frac.le := fun a b => inferInstanceAs (Decidable (_ ≤ _))

/-- Semantic equality of fractions (equality of the represented rationals). -/
def Frac.eqv (a b : Frac) : Prop := a.num * b.den = b.num * a.den

instance : DecidableRel Frac.eqv := fun a b => inferInstanceAs (Decidable (_ = _))

/-- Absolute value. -/
def Frac.abs (a : Frac) : Frac := ⟨|a.num|, a.den⟩

/-- Negation. -/
def Frac.neg (a : Frac) : Frac := ⟨-a.num, a.den⟩

/-- The rational value a fraction denotes. -/
def Frac.toRat (a : Frac) : Rat := (a.num : Rat) / (a.den : Rat)

/-- Model of Python's `int(x)`: truncation toward zero. -/
def Frac.trunc (a : Frac) : Int := a.num.tdiv a.den

/-- Sum of a list of fractions. -/
def fracSum (xs : List Frac) : Frac := xs.foldr Frac.add Frac.zero

/-- Arithmetic mean (`pandas .mean()`); division by zero on the empty list
yields zero, and callers that need the nan sentinel use `fracMean?`. -/
def fracMean (xs : List Frac) : Frac := (fracSum xs).div (Frac.ofInt xs.length)

/-- `pandas .mean()` with the nan sentinel on an empty column. -/
def fracMean? (xs : List Frac) : Option Frac :=
  if xs.length = 0 then Option.none else some (fracMean xs)

/-- Sum of squared deviations from the mean. -/
def fracSqDev (xs : List Frac) : Frac :=
  fracSum (xs.map (fun x => (x.sub (fracMean xs)).sq))

/-- Sample variance, the square of the n−1 (ddof = 1) standard deviation of
`pandas .std()`: the source stores the square root of this quantity; it is
carried squared here to stay inside exact rational arithmetic.  Undefined
(nan, pandas' sentinel for a single observation) is `Option.none`. -/
def sampleVar? (xs : List Frac) : Option Frac :=
  if xs.length ≤ 1 then Option.none
  else some ((fracSqDev xs).div (Frac.ofInt (xs.length - 1)))

/-- Population variance (ddof = 0), the square of the standard deviation used
by `scipy.stats.zscore`'s default. -/
def popVar (xs : List Frac) : Frac := (fracSqDev xs).div (Frac.ofInt xs.length)

/-- Minimum of a list (`pandas .min()`), `Option.none` on the empty column. -/
def fracMin? : List Frac → Option Frac
  | [] => Option.none
  | x :: xs =>
    match fracMin? xs with
    | Option.none => some x
    | some m => some (if Frac.le x m then x else m)

/-- Maximum of a list (`pandas .max()`), `Option.none` on the empty column. -/
def fracMax? : List Frac → Option Frac
  | [] => Option.none
  | x :: xs =>
    match fracMax? xs with
    | Option.none => some x
    | some m => some (if Frac.le m x then x else m)

/-- `pandas .quantile(q)` with the default linear interpolation between order
statistics: with the data sorted ascending and h = q·(n−1), the result is
x⌊h⌋ + (h − ⌊h⌋)·(x⌊h⌋₊₁ − x⌊h⌋).  `Option.none` on the empty column. -/
def fracQuantile? (q : Frac) (xs : List Frac) : Option Frac :=
  if xs.length = 0 then Option.none
  else
    let sorted := List.insertionSort Frac.le xs
    let h := q.mul (Frac.ofInt (xs.length - 1))
    let lo := h.trunc.toNat
    let xlo := sorted.getD lo Frac.zero
    let xhi := sorted.getD (min (lo + 1) (xs.length - 1)) Frac.zero
    some (xlo.add ((h.sub (Frac.ofInt lo)).mul (xhi.sub xlo)))

/-- `pandas .median()`, which is the linearly interpolated 0.5 quantile. -/
def fracMedian? (xs : List Frac) : Option Frac := fracQuantile? ⟨1, 2⟩ xs

/-- A cell value of a record / data-frame column, mirroring the Python value
kinds the scripts traffic in.  `isoStr t` is the ISO-8601 string rendering of
the instant `t` (instants are modelled as integer seconds since the epoch):
`datetime.isoformat()` produces such strings and `pd.to_datetime` parses them
back; free-text strings that are not timestamp renderings are `str`.
`time t` is a parsed `datetime64` cell as produced by the loaders. -/
inductive Value where
  | int : Int → Value
  | num : Frac → Value
  | str : String → Value
  | isoStr : Int → Value
  | time : Int → Value
  | none : Value
deriving DecidableEq, Repr

/-- Numeric view of a cell (`isinstance(x, (int, float))`). -/
def Value.asFrac : Value → Option Frac
  | .int n => some (Frac.ofInt n)
  | .num f => some f
  | _ => Option.none

/-- The instant a cell denotes under `pd.to_datetime`, when it parses.
Datetime cells and ISO renderings parse to their instant; numbers parse as
epoch offsets; free text and null do not parse in this model. -/
def parseTimestamp : Value → Option Int
  | .time t => some t
  | .isoStr t => some t
  | .int n => some n
  | .num f => some f.trunc
  | _ => Option.none

/-- A record: a Python dict, as an association list in insertion order. -/
def PyRecord := List (String × Value)

instance : DecidableEq PyRecord := inferInstanceAs (DecidableEq (List (String × Value)))

/-- Dictionary lookup (`record[f]` / `f in record`). -/
def recGet (r : PyRecord) (f : String) : Option Value :=
  (r.find? (fun p => p.1 = f)).map (fun p => p.2)

/-- `DataValidator.REQUIRED_FIELDS`. -/
def REQUIRED_FIELDS : List String := ["timestamp", "heartRate", "hrv", "activity"]

/-- `DataValidator.VALID_ACTIVITIES`. -/
def VALID_ACTIVITIES : List String := ["resting", "walking", "exercise", "sleeping"]

/-- `DataValidator.validate_record`: required-field presence first (in
`REQUIRED_FIELDS` order, returning on the first miss), then timestamp
parseability, heart-rate range, HRV non-negativity, activity enum membership,
and the optional temperature range.  Interpolated values are omitted from the
error strings; the claims only depend on the missing-field message naming its
field. -/
def validate_record (record : PyRecord) : Bool × Option String :=
  match REQUIRED_FIELDS.find? (fun f => (recGet record f).isNone) with
  | some f => (false, some ("Missing required field: " ++ f))
  | Option.none =>
    if (parseTimestamp ((recGet record "timestamp").getD Value.none)).isNone then
      (false, some "Invalid timestamp")
    else
      match Value.asFrac ((recGet record "heartRate").getD Value.none) with
      | Option.none => (false, some "Heart rate out of valid range (30-220)")
      | some hr =>
        if Frac.lt hr (Frac.ofInt 30) ∨ Frac.lt (Frac.ofInt 220) hr then
          (false, some "Heart rate out of valid range (30-220)")
        else
          match Value.asFrac ((recGet record "hrv").getD Value.none) with
          | Option.none => (false, some "Invalid HRV value")
          | some hrv =>
            if Frac.lt hrv (Frac.ofInt 0) then (false, some "Invalid HRV value")
            else
              match (recGet record "activity").getD Value.none with
              | .str a =>
                if a ∈ VALID_ACTIVITIES then
                  match recGet record "temperature" with
                  | Option.none => (true, Option.none)
                  | some tv =>
                    if tv = Value.none then (true, Option.none)
                    else
                      match Value.asFrac tv with
                      | Option.none => (false, some "Temperature out of valid range (30-45)")
                      | some t =>
                        if Frac.lt t (Frac.ofInt 30) ∨ Frac.lt (Frac.ofInt 45) t then
                          (false, some "Temperature out of valid range (30-45)")
                        else (true, Option.none)
                else (false, some "Invalid activity")
              | _ => (false, some "Invalid activity")

/-- `DataValidator.validate_dataframe`: a missing required column
short-circuits the per-record checks; otherwise every row is validated and
all errors are collected, tagged with the 0-based row index. -/
def validate_dataframe (rows : List PyRecord) (columns : List String) : Bool × List String :=
  let missing := REQUIRED_FIELDS.filter (fun f => ¬ f ∈ columns)
  if missing ≠ [] then
    (false, missing.map (fun f => "Missing required column: " ++ f))
  else
    let errors := (List.range rows.length).filterMap (fun i =>
      match validate_record (rows.getD i []) with
      | (true, _) => Option.none
      | (false, e) => some ("Row " ++ toString i ++ ": " ++ (e.getD "")))
    (errors.length = 0, errors)

/-- A pandas data frame: named columns in order.  The second component of
each pair is the column's cells, row by row. -/
structure DataFrame where
  cols : List (String × List Value)
deriving DecidableEq, Repr

/-- `len(df)`: the number of rows (the length of the first column; zero for a
frame with no columns). -/
def DataFrame.len (df : DataFrame) : Nat :=
  match df.cols with
  | [] => 0
  | c :: _ => c.2.length

/-- `df[name]`, when the column exists. -/
def getCol (df : DataFrame) (name : String) : Option (List Value) :=
  (df.cols.find? (fun c => c.1 = name)).map (fun c => c.2)

/-- `name in df.columns`. -/
def hasCol (df : DataFrame) (name : String) : Bool :=
  df.cols.any (fun c => c.1 = name)

/-- `df[name] = vs`: in-place column assignment — overwrites the column if
the name exists, otherwise appends a new column at the end (pandas
semantics).  `analyze_data` below returns the post-assignment frame as the
second component of its result, which is the model of this mutation of the
caller's frame. -/
def setCol (df : DataFrame) (name : String) (vs : List Value) : DataFrame :=
  if hasCol df name then
    ⟨df.cols.map (fun c => if c.1 = name then (name, vs) else c)⟩
  else ⟨df.cols ++ [(name, vs)]⟩

/-- All cells of a column as numbers, when every cell is numeric
(`select_dtypes(include=[np.number])` admits a column exactly when its dtype
is numeric, i.e. the column is non-empty in this model — a 0-row frame's
columns carry dtype `object` — and every cell is a number). -/
def colFracs? (col : List Value) : Option (List Frac) :=
  col.foldr (fun v acc =>
    match Value.asFrac v, acc with
    | some f, some fs => some (f :: fs)
    | _, _ => Option.none) (some [])

/-- Whether a column is selected by `select_dtypes(include=[np.number])`. -/
def isNumericCol (col : List Value) : Bool :=
  ¬ col.isEmpty ∧ (colFracs? col).isSome

/-- The instants of a datetime column. -/
def colTimes (col : List Value) : List Int := col.filterMap parseTimestamp

/-- The per-column descriptive statistics block of the Analysis Report.
`stdSq` carries the square of the n−1 standard deviation (see `sampleVar?`). -/
structure ColStats where
  mean : Option Frac
  median : Option Frac
  stdSq : Option Frac
  smin : Option Frac
  smax : Option Frac
  q25 : Option Frac
  q75 : Option Frac
deriving DecidableEq, Repr

/-- Statistics of one numeric column, as built by `analyze_data`. -/
def colStats (xs : List Frac) : ColStats :=
  { mean := fracMean? xs
    median := fracMedian? xs
    stdSq := sampleVar? xs
    smin := fracMin? xs
    smax := fracMax? xs
    q25 := fracQuantile? ⟨1, 4⟩ xs
    q75 := fracQuantile? ⟨3, 4⟩ xs }

/-- The date-range summary: stringified min/max timestamp and the duration in
hours ((max − min) seconds / 3600).  The sentinels are `Option.none` on a
0-row timestamp column (pandas NaT / nan). -/
structure DateRange where
  startT : Option Int
  endT : Option Int
  durationHours : Option Frac
deriving DecidableEq, Repr

/-- The anomaly block.  `records` holds, in original batch order, the
(timestamp, heartRate, z²) triple of each offending row; the source stores
|z| where this model stores z² = |z|², an equivalent datum inside exact
rational arithmetic (|z| > 2 iff z² > 4, both sides being nonnegative). -/
structure AnomalyBlock where
  count : Nat
  percentage : Frac
  threshold : Frac
  records : List (Value × Frac × Frac)
deriving DecidableEq, Repr

/-- Per-activity heart-rate statistics (`groupby('activity')['heartRate']`). -/
structure GroupStats where
  mean_hr : Frac
  stdSq_hr : Option Frac
  min_hr : Frac
  max_hr : Frac
deriving DecidableEq, Repr

/-- The Analysis Report produced by `analyze_data`. -/
structure Report where
  total_records : Nat
  columns : List String
  date_range : Option DateRange
  statistics : List (String × ColStats)
  anomalies : Option AnomalyBlock
  activity_breakdown : List (Value × Nat × Frac)
  activity_stats : Option (List (Value × GroupStats))
deriving DecidableEq, Repr

/-- The distinct values of a list in order of first appearance. -/
def firstAppear : List Value → List Value
  | [] => []
  | a :: l => a :: (firstAppear l).filter (fun b => ¬ b = a)

/-- Non-increasing count order on (value, count) pairs. -/
def countGe (p q : Value × Nat) : Prop := q.2 ≤ p.2

instance : DecidableRel countGe := fun p q => inferInstanceAs (Decidable (_ ≤ _))

instance : IsTotal (Value × Nat) countGe :=
  ⟨fun p q => Nat.le_total q.2 p.2⟩

instance : IsTrans (Value × Nat) countGe :=
  ⟨fun _ _ _ h1 h2 => Nat.le_trans h2 h1⟩

/-- `pandas value_counts()`: the distinct values with their multiplicities,
sorted by descending count.  The sort is stable, so values with equal counts
stay in first-appearance order. -/
def valueCounts (xs : List Value) : List (Value × Nat) :=
  List.insertionSort countGe ((firstAppear xs).map (fun v => (v, xs.count v)))

/-- The squared z-scores of a list under the population (ddof = 0) standard
deviation, which is `scipy.stats.zscore`'s default: z²ᵢ = (xᵢ − μ)² / σ²pop.
When the variance is zero every entry divides by zero and yields the
`Frac.div` zero sentinel, mirroring numpy's nan z-scores there (nan compares
false against every threshold, just as zero is not above the positive
threshold). -/
def zscoreSq (xs : List Frac) : List Frac :=
  xs.map (fun x => ((x.sub (fracMean xs)).sq).div (popVar xs))

/-- The 0-based row indices `analyze_data` flags as anomalies: squared
z-score strictly above 2.0² = 4. -/
def anomalyIdx (xs : List Frac) : List Nat :=
  (List.range xs.length).filter (fun i => Frac.lt (Frac.ofInt 4) ((zscoreSq xs).getD i Frac.zero))

/-- The anomaly section of `analyze_data`, together with the frame after the
in-place `df['hr_zscore'] = np.abs(stats.zscore(df['heartRate']))`
assignment.  Raising paths of the source become errors: `stats.zscore` on a
non-numeric column (`TypeError`), the `len(anomalies) / len(df)` percentage
on a 0-row frame (`ZeroDivisionError`), and the
`anomalies[['timestamp', 'heartRate', 'hr_zscore']]` row selection when
anomalies exist but no timestamp column does (`KeyError`). -/
def anomalySection (df : DataFrame) :
    Except String (Option AnomalyBlock × Option (List Frac) × DataFrame) :=
  match getCol df "heartRate" with
  | Option.none => Except.ok (Option.none, Option.none, df)
  | some col =>
    match colFracs? col with
    | Option.none => Except.error "TypeError: zscore of non-numeric column"
    | some hrs =>
      if df.len = 0 then Except.error "ZeroDivisionError: division by zero"
      else
        match anomalyIdx hrs, getCol df "timestamp" with
        | [], _ =>
          Except.ok (some { count := 0
                            percentage := ((Frac.ofInt 0).div (Frac.ofInt df.len)).mul (Frac.ofInt 100)
                            threshold := Frac.ofInt 2
                            records := [] }, some hrs,
                     setCol df "hr_zscore" ((zscoreSq hrs).map Value.num))
        | _ :: _, Option.none => Except.error "KeyError: timestamp"
        | idx, some ts =>
          Except.ok (some { count := idx.length
                            percentage := ((Frac.ofInt idx.length).div (Frac.ofInt df.len)).mul (Frac.ofInt 100)
                            threshold := Frac.ofInt 2
                            records := idx.map (fun i =>
                              (ts.getD i Value.none, hrs.getD i Frac.zero,
                               (zscoreSq hrs).getD i Frac.zero)) }, some hrs,
                     setCol df "hr_zscore" ((zscoreSq hrs).map Value.num))

/-- The activity breakdown: `value_counts()` entries, each with its count and
its percentage of the total row count. -/
def activityBreakdown (acts : List Value) (n : Nat) : List (Value × Nat × Frac) :=
  (valueCounts acts).map (fun p =>
    (p.1, p.2, ((Frac.ofInt p.2).div (Frac.ofInt n)).mul (Frac.ofInt 100)))

/-- Per-activity heart-rate statistics: `groupby('activity')` sorts its
groups by key (rendered order stands in for Python's value order). -/
def activityStats (acts : List Value) (hrs : List Frac) : List (Value × GroupStats) :=
  let keys := List.insertionSort (fun a b : Value => toString (repr a) ≤ toString (repr b)) (firstAppear acts)
  keys.map (fun k =>
    let group := ((acts.zip hrs).filter (fun p => p.1 = k)).map (fun p => p.2)
    (k, { mean_hr := fracMean group
          stdSq_hr := sampleVar? group
          min_hr := (fracMin? group).getD Frac.zero
          max_hr := (fracMax? group).getD Frac.zero }))

/-- `analyze_data(df)` of `scripts/analyze_data.py`.  Returns the Analysis
Report together with the input frame as it stands after the function ran
(the source mutates its argument in place when it adds the `hr_zscore`
column; the returned frame is that post-state).  Error results model the
exceptions the source can raise. -/
def analyze_data (df : DataFrame) : Except String (Report × DataFrame) :=
  let dateRange := (getCol df "timestamp").map (fun col =>
    let ts := colTimes col
    { startT := ts.min?
      endT := ts.max?
      durationHours :=
        match ts.min?, ts.max? with
        | some a, some b => some ((Frac.ofInt (b - a)).div (Frac.ofInt 3600))
        | _, _ => Option.none })
  let statistics := (df.cols.filter (fun c => isNumericCol c.2)).map
    (fun c => (c.1, colStats ((colFracs? c.2).getD [])))
  match anomalySection df with
  | Except.error e => Except.error e
  | Except.ok (anoms, hrs?, df2) =>
    let breakdown :=
      match getCol df "activity" with
      | Option.none => []
      | some acts => activityBreakdown acts df.len
    let actStats :=
      match getCol df "activity", hrs? with
      | some acts, some hrs => some (activityStats acts hrs)
      | _, _ => Option.none
    Except.ok ({ total_records := df.len
                 columns := df.cols.map (fun c => c.1)
                 date_range := dateRange
                 statistics := statistics
                 anomalies := anoms
                 activity_breakdown := breakdown
                 activity_stats := actStats }, df2)

/-- The error text of an `Except` result, if it failed. -/
def errText {α : Type} : Except String α → Option String
  | Except.error e => some e
  | Except.ok _ => Option.none

/-- The Analysis Report of a frame, when analysis does not raise. -/
def reportOf (df : DataFrame) : Option Report :=
  (analyze_data df).toOption.map (fun p => p.1)

/-- The post-state of a frame run through `analyze_data` (the frame as the
caller observes it afterwards); the frame itself when analysis raised before
returning. -/
def postState (df : DataFrame) : DataFrame :=
  ((analyze_data df).toOption.map (fun p => p.2)).getD df

/-- The hour-of-day of an instant (timezone-naive, epoch-based). -/
def hourOf (t : Int) : Int := (t.fdiv 3600) % 24

/-- Day of week with Monday = 0 (the epoch, 1970-01-01, was a Thursday). -/
def dayOfWeekOf (t : Int) : Int := (t.fdiv 86400 + 3) % 7

/-- `DataProcessor.add_time_features`: parses the timestamp column and
attaches `hour`, `day_of_week`, `is_night` (hour ≥ 22 or hour ≤ 6) and
`is_weekend` (day_of_week ≥ 5).  A frame without a timestamp column raises
(`KeyError`). -/
def add_time_features (df : DataFrame) : Except String DataFrame :=
  match getCol df "timestamp" with
  | Option.none => Except.error "KeyError: timestamp"
  | some col =>
    let ts := col.map (fun v => (parseTimestamp v).getD 0)
    let df1 := setCol df "timestamp" (ts.map Value.time)
    let df2 := setCol df1 "hour" (ts.map (fun t => Value.int (hourOf t)))
    let df3 := setCol df2 "day_of_week" (ts.map (fun t => Value.int (dayOfWeekOf t)))
    let df4 := setCol df3 "is_night" (ts.map (fun t =>
      Value.int (if 22 ≤ hourOf t ∨ hourOf t ≤ 6 then 1 else 0)))
    Except.ok (setCol df4 "is_weekend" (ts.map (fun t =>
      Value.int (if 5 ≤ dayOfWeekOf t then 1 else 0))))

/-- `df.sort_values('timestamp')` when the column exists: the rows reindexed
by a sort of the timestamp keys (modelled with a stable sort). -/
def sortByTimestamp (df : DataFrame) : DataFrame :=
  match getCol df "timestamp" with
  | Option.none => df
  | some col =>
    let ts := col.map (fun v => (parseTimestamp v).getD 0)
    let perm := List.insertionSort (fun i j => ts.getD i 0 ≤ ts.getD j 0) (List.range df.len)
    ⟨df.cols.map (fun c => (c.1, perm.map (fun i => c.2.getD i Value.none)))⟩

/-- The trailing window ending at 0-based position `i` of a
`rolling(window=w, min_periods=1)` pass: the last `min w (i+1)` of the first
`i+1` elements.  It never contains an element at a position after `i`. -/
def trailingWindow (xs : List Frac) (w i : Nat) : List Frac :=
  (xs.take (i + 1)).drop (i + 1 - w)

/-- The rolling mean at position `i` (`rolling(w, min_periods=1).mean()`). -/
def rollingMeanAt (xs : List Frac) (w i : Nat) : Frac :=
  fracMean (trailingWindow xs w i)

/-- The squared rolling standard deviation at position `i`
(`rolling(w, min_periods=1).std()`, ddof = 1); `Option.none` is the nan the
source produces on a single-element window. -/
def rollingStdSqAt (xs : List Frac) (w i : Nat) : Option Frac :=
  sampleVar? (trailingWindow xs w i)

/-- `DataProcessor.calculate_rolling_stats`: sorts by timestamp when that
column exists, then attaches the four rolling columns.  `Value.none` cells
are the nan entries of the source.  Rolling over a missing or non-numeric
column raises. -/
def calculate_rolling_stats (df : DataFrame) (window : Nat) : Except String DataFrame :=
  let df2 := sortByTimestamp df
  match (getCol df2 "heartRate").bind colFracs?, (getCol df2 "hrv").bind colFracs? with
  | some hrs, some hrvs =>
    let meanCol := fun xs : List Frac => (List.range xs.length).map
      (fun i => Value.num (rollingMeanAt xs window i))
    let stdCol := fun xs : List Frac => (List.range xs.length).map
      (fun i => match rollingStdSqAt xs window i with
                | some v => Value.num v
                | Option.none => Value.none)
    let d1 := setCol df2 "hr_rolling_mean" (meanCol hrs)
    let d2 := setCol d1 "hrv_rolling_mean" (meanCol hrvs)
    let d3 := setCol d2 "hr_rolling_std" (stdCol hrs)
    Except.ok (setCol d3 "hrv_rolling_std" (stdCol hrvs))
  | _, _ => Except.error "DataError: rolling on missing or non-numeric column"

/-- `df['heartRate'].diff().abs()`: absolute consecutive difference; the
first position carries the nan of an undefined change. -/
def hrChangeList (xs : List Frac) : List (Option Frac) :=
  (List.range xs.length).map (fun i =>
    match i with
    | 0 => Option.none
    | Nat.succ j => some (Frac.abs ((xs.getD i Frac.zero).sub (xs.getD j Frac.zero))))

/-- `(hr_change > threshold).astype(int)`: 1 iff the change is defined and
strictly above the threshold (nan compares false, so the first row is 0). -/
def rapidFlags (xs : List Frac) (threshold : Frac) : List Nat :=
  (hrChangeList xs).map (fun c =>
    match c with
    | Option.none => 0
    | some d => if Frac.lt threshold d then 1 else 0)

/-- `DataProcessor.detect_rapid_changes`: sorts by timestamp when that column
exists, then attaches `hr_change` and `rapid_change`. -/
def detect_rapid_changes (df : DataFrame) (threshold : Frac) : Except String DataFrame :=
  let df2 := sortByTimestamp df
  match (getCol df2 "heartRate").bind colFracs? with
  | some hrs =>
    let d1 := setCol df2 "hr_change" ((hrChangeList hrs).map (fun c =>
      match c with
      | some v => Value.num v
      | Option.none => Value.none))
    Except.ok (setCol d1 "rapid_change" ((rapidFlags hrs threshold).map (fun b => Value.int b)))
  | Option.none => Except.error "KeyError: heartRate"

/-- The numpy global random generator, modelled as the infinite stream of raw
natural-number draws it will produce.  Only the seeding discipline and the
deterministic state threading matter for the verified properties; the
distributional shape of the draws is not modelled. -/
def RNG := Nat → Nat

/-- The stream after one draw is consumed. -/
def RNG.shift (g : RNG) : RNG := fun n => g (n + 1)

/-- Model of `np.random.seed(s)`: the stream the generator produces from seed
`s` (a concrete mixing function standing in for MT19937 initialization). -/
def seedStream (s : Nat) : RNG :=
  fun n => (s * 1103515245 + n * 12345 + 7) % 2147483648

/-- Model of one `np.random.normal(0, sigma)` draw: consumes one raw draw and
returns a value in [−4·sigma, 4·sigma] depending deterministically on it. -/
def normalDraw (sigma : Frac) (g : RNG) : Frac × RNG :=
  (sigma.mul ⟨Int.ofNat (g 0 % 2001) - 1000, 250⟩, g.shift)

/-- Model of one `np.random.choice(opts, p=...)` draw: consumes one raw draw
and returns one of the listed options (the weights only shape the
distribution, which is not modelled). -/
def choiceDraw (opts : List String) (g : RNG) : String × RNG :=
  (opts.getD (g 0 % opts.length) "", g.shift)

/-- Model of one `np.random.randint(a, b)` draw: a value in [a, b). -/
def randintDraw (a b : Int) (g : RNG) : Int × RNG :=
  (a + (Int.ofNat (g 0)) % (b - a), g.shift)

/-- `max(40, min(200, int(hr)))`. -/
def clampHr (hr : Frac) : Int := max 40 (min 200 hr.trunc)

/-- `max(10, int(hrv))`. -/
def clampHrv (hrv : Frac) : Int := max 10 hrv.trunc

/-- The time-of-day regime of `generate_daily_pattern`: activity together
with the pre-noise heart rate and HRV, consuming draws in the source's
order. -/
def dailyBranch (base_hr : Int) (hour : Int) (g : RNG) : (String × Frac × Frac) × RNG :=
  if 0 ≤ hour ∧ hour < 6 then
    let d1 := normalDraw (Frac.ofInt 3) g
    let d2 := normalDraw (Frac.ofInt 10) d1.2
    (("sleeping", (Frac.ofInt (base_hr - 20)).add d1.1, (Frac.ofInt 70).add d2.1), d2.2)
  else if 6 ≤ hour ∧ hour < 8 then
    let d1 := normalDraw (Frac.ofInt 5) g
    let d2 := normalDraw (Frac.ofInt 8) d1.2
    (("resting", (Frac.ofInt (base_hr - 10)).add d1.1, (Frac.ofInt 60).add d2.1), d2.2)
  else if 8 ≤ hour ∧ hour < 12 then
    let c := choiceDraw ["walking", "resting", "exercise"] g
    if c.1 = "exercise" then
      let d1 := normalDraw (Frac.ofInt 10) c.2
      let d2 := normalDraw (Frac.ofInt 5) d1.2
      ((c.1, (Frac.ofInt (base_hr + 40)).add d1.1, (Frac.ofInt 30).add d2.1), d2.2)
    else if c.1 = "walking" then
      let d1 := normalDraw (Frac.ofInt 8) c.2
      let d2 := normalDraw (Frac.ofInt 8) d1.2
      ((c.1, (Frac.ofInt (base_hr + 15)).add d1.1, (Frac.ofInt 45).add d2.1), d2.2)
    else
      let d1 := normalDraw (Frac.ofInt 5) c.2
      let d2 := normalDraw (Frac.ofInt 8) d1.2
      ((c.1, (Frac.ofInt base_hr).add d1.1, (Frac.ofInt 55).add d2.1), d2.2)
  else if 12 ≤ hour ∧ hour < 18 then
    let c := choiceDraw ["walking", "resting"] g
    let d1 := normalDraw (Frac.ofInt 8) c.2
    let d2 := normalDraw (Frac.ofInt 10) d1.2
    ((c.1, (Frac.ofInt (base_hr + (if c.1 = "walking" then 10 else 0))).add d1.1,
      (Frac.ofInt 50).add d2.1), d2.2)
  else if 18 ≤ hour ∧ hour < 22 then
    let d1 := normalDraw (Frac.ofInt 5) g
    let d2 := normalDraw (Frac.ofInt 8) d1.2
    (("resting", (Frac.ofInt (base_hr - 5)).add d1.1, (Frac.ofInt 55).add d2.1), d2.2)
  else
    let d1 := normalDraw (Frac.ofInt 3) g
    let d2 := normalDraw (Frac.ofInt 8) d1.2
    (("sleeping", (Frac.ofInt (base_hr - 15)).add d1.1, (Frac.ofInt 65).add d2.1), d2.2)

/-- One record of the daily pattern: regime computation, global noise, the
clamp-and-truncate of heart rate and HRV, and the dict in source key order. -/
def dailyRecord (date : Int) (base_hr : Int) (noise_level : Frac) (i : Nat) (g : RNG) :
    PyRecord × RNG :=
  let t := date + 1800 * (i : Int)
  let b := dailyBranch base_hr (hourOf t) g
  let nz := normalDraw noise_level b.2
  ([("timestamp", Value.isoStr t), ("heartRate", Value.int (clampHr (b.1.2.1.add nz.1))),
    ("hrv", Value.int (clampHrv b.1.2.2)), ("activity", Value.str b.1.1),
    ("device", Value.str "Synthetic Generator")], nz.2)

/-- The generation loop of the daily pattern, threading the generator state.
First argument is the record index, second the count still to emit. -/
def dailyLoop (date : Int) (base_hr : Int) (noise_level : Frac) :
    Nat → Nat → RNG → List PyRecord
  | _, 0, _ => []
  | i, Nat.succ k, g =>
    (dailyRecord date base_hr noise_level i g).1
      :: dailyLoop date base_hr noise_level (i + 1) k (dailyRecord date base_hr noise_level i g).2

/-- The argument of `np.random.seed` in `generate_daily_pattern`:
`int(date.timestamp()) % 1000` (Python's `%` is nonnegative here). -/
def dailySeed (date : Int) : Nat := (date % 1000).toNat

/-- `SyntheticDataGenerator.generate_daily_pattern`.  The ambient generator
state is accepted (the source reads the numpy global generator) but the
function reseeds it from the start date before drawing, so the ambient state
never influences the output. -/
def generate_daily_pattern (date : Int) (num_records : Nat) (base_hr : Int)
    (noise_level : Frac) (_ambient : RNG) : List PyRecord :=
  dailyLoop date base_hr noise_level 0 num_records (seedStream (dailySeed date))

/-- One record of the episode pattern, parameterized by the normalized
progress i / num_records. -/
def episodeRecord (start_time : Int) (num_records : Nat) (i : Nat) (g : RNG) :
    PyRecord × RNG :=
  let t := start_time + 300 * (i : Int)
  let progress : Frac := ⟨(i : Int), (num_records : Int)⟩
  let step :=
    if Frac.lt progress ⟨3, 10⟩ then
      ((45 : Int) + ((Frac.ofInt 15).mul ((Frac.ofInt 1).sub (progress.div ⟨3, 10⟩))).trunc,
       (20 : Int) + ((Frac.ofInt 10).mul (progress.div ⟨3, 10⟩)).trunc, g)
    else if Frac.lt progress ⟨7, 10⟩ then
      let d1 := randintDraw (-5) 5 g
      let d2 := randintDraw (-3) 3 d1.2
      ((40 : Int) + d1.1, (15 : Int) + d2.1, d2.2)
    else
      let rp := (progress.sub ⟨7, 10⟩).div ⟨3, 10⟩
      ((45 : Int) + ((Frac.ofInt 25).mul rp).trunc,
       (20 : Int) + ((Frac.ofInt 30).mul rp).trunc, g)
  ([("timestamp", Value.isoStr t), ("heartRate", Value.int step.1), ("hrv", Value.int step.2.1),
    ("activity", Value.str "resting"), ("device", Value.str "TPP Episode Simulator")], step.2.2)

/-- The generation loop of the episode pattern, threading and returning the
generator state (the source leaves the numpy global state advanced). -/
def episodeLoop (start_time : Int) (num_records : Nat) :
    Nat → Nat → RNG → List PyRecord × RNG
  | _, 0, g => ([], g)
  | i, Nat.succ k, g =>
    ((episodeRecord start_time num_records i g).1
       :: (episodeLoop start_time num_records (i + 1) k
             (episodeRecord start_time num_records i g).2).1,
     (episodeLoop start_time num_records (i + 1) k
        (episodeRecord start_time num_records i g).2).2)

/-- `SyntheticDataGenerator.generate_tpp_episode`: `duration_minutes // 5`
records at a 5-minute cadence.  Unlike the daily pattern, the source never
reseeds here: the output is drawn from the ambient generator state. -/
def generate_tpp_episode (start_time : Int) (duration_minutes : Nat) (g : RNG) :
    List PyRecord × RNG :=
  episodeLoop start_time (duration_minutes / 5) 0 (duration_minutes / 5) g

/-- The division-free rational form of the population z-score anomaly rule
actually implemented (`scipy.stats.zscore` default, ddof = 0): with values
x over ℚ, n = |x| and μ = Σx/n, index i is flagged iff
4·Σⱼ(xⱼ − μ)² < n·(xᵢ − μ)², which for positive variance is exactly
|(xᵢ − μ)/σpop| > 2 with both sides squared and cleared of denominators
(and which is false everywhere when the variance is zero, as nan comparisons
are). -/
def popFlaggedQ (xs : List Rat) : List Nat :=
  (List.range xs.length).filter (fun i =>
    4 * (xs.map (fun y => (y - xs.sum / xs.length) ^ 2)).sum
      < (xs.length : Rat) * (xs.getD i 0 - xs.sum / xs.length) ^ 2)

/-- The anomaly rule exactly as the verified claim words it: z-scores taken
with the sample standard deviation (n−1 denominator) and threshold 2.0,
carried squared (|z| > 2 iff z² > 4).  This definition follows the claim's
words, for comparison against the implemented `anomalyIdx`. -/
def sampleFlagged (xs : List Frac) : List Nat :=
  (List.range xs.length).filter (fun i =>
    Frac.lt (Frac.ofInt 4)
      (((xs.getD i Frac.zero).sub (fracMean xs)).sq.div
        ((fracSqDev xs).div (Frac.ofInt (xs.length - 1)))))

/-- The activity breakdown of a frame's Analysis Report (empty when the
analysis raised). -/
def breakdownOf (df : DataFrame) : List (Value × Nat × Frac) :=
  ((reportOf df).map (fun r => r.activity_breakdown)).getD []

/-- The anomaly block of a frame's Analysis Report (`Option.none` when the
analysis raised or the block is absent). -/
def anomalyBlockOf (df : DataFrame) : Option AnomalyBlock :=
  ((reportOf df).map (fun r => r.anomalies)).getD Option.none

/-- An empty batch that nevertheless has a `heartRate` column (e.g. a CSV
with headers and no rows). -/
def emptyHeartRateFrame : DataFrame := ⟨[("heartRate", [])]⟩

/-- A three-row batch whose activities are resting, walking, walking: walking
is the most frequent value but resting appears first. -/
def dfBreakdownCex : DataFrame :=
  ⟨[("activity", [Value.str "resting", Value.str "walking", Value.str "walking"])]⟩

/-- A two-row batch with timestamp and heartRate columns, used to exhibit the
in-place `hr_zscore` mutation. -/
def dfMutationCex : DataFrame :=
  ⟨[("timestamp", [Value.time 0, Value.time 1800]),
    ("heartRate", [Value.int 70, Value.int 95])]⟩

/-- Heart rates 70, 71, 71, 71, 71, 73: the last value has population
z-score ≈ 2.04 (flagged) but sample z-score ≈ 1.86 (not flagged). -/
def hrsZscoreCex : List Frac :=
  [Frac.ofInt 70, Frac.ofInt 71, Frac.ofInt 71, Frac.ofInt 71, Frac.ofInt 71, Frac.ofInt 73]

/-- The six-row batch carrying `hrsZscoreCex` with timestamps. -/
def dfZscoreCex : DataFrame :=
  ⟨[("timestamp", [Value.time 0, Value.time 300, Value.time 600, Value.time 900,
                   Value.time 1200, Value.time 1500]),
    ("heartRate", [Value.int 70, Value.int 71, Value.int 71, Value.int 71,
                   Value.int 71, Value.int 73])]⟩

/-- Twenty records of 70 bpm: the zero-variance batch of the specification's
degenerate-case test. -/
def dfConstantHr : DataFrame :=
  ⟨[("heartRate", List.replicate 20 (Value.int 70))]⟩

/-- A one-row activity frame used to instantiate the breakdown theorem. -/
def dfBreakdownWitness : DataFrame :=
  ⟨[("activity", [Value.str "resting", Value.str "walking", Value.str "walking",
                  Value.str "sleeping"])]⟩

theorem trailingWindow_length (xs : List Frac) (w i : Nat) (hi : i < xs.length) :
    (trailingWindow xs w i).length = min w (i + 1) := by
  unfold trailingWindow
  simp only [List.length_drop, List.length_take]
  omega

theorem fracMean_singleton (x : Frac) : fracMean [x] = x := by
  unfold fracMean fracSum Frac.div Frac.ofInt Frac.add Frac.zero
  simp

theorem trailingWindow_zero (xs : List Frac) (w : Nat) (hw : 0 < w) (h0 : 0 < xs.length) :
    trailingWindow xs w 0 = [xs.getD 0 Frac.zero] := by
  unfold trailingWindow
  cases xs with
  | nil => simp at h0
  | cons a l => simp [Nat.sub_eq_zero_of_le hw]

/-- C8: for every batch and positive window size, the rolling statistics at
0-based position i are taken over the trailing window of the last
min(w, i+1) elements; at position 0 the rolling mean is the record's own
value and the rolling standard deviation is the nan sentinel (the sample,
n−1, estimator is undefined on one element); from position w−1 on the window
has size exactly w. -/
theorem C8_rolling_window (xs : List Frac) (w : Nat) (hw : 0 < w) (i : Nat)
    (hi : i < xs.length) :
    (trailingWindow xs w i).length = min w (i + 1)
    ∧ (w - 1 ≤ i → (trailingWindow xs w i).length = w)
    ∧ (i = 0 → rollingMeanAt xs w 0 = xs.getD 0 Frac.zero
        ∧ rollingStdSqAt xs w 0 = Option.none) := by
  have hlen := trailingWindow_length xs w i hi
  refine ⟨hlen, fun hwi => ?_, fun hi0 => ?_⟩
  · rw [hlen]; omega
  · subst hi0
    have h0 := trailingWindow_zero xs w hw (by omega)
    constructor
    · unfold rollingMeanAt
      rw [h0, fracMean_singleton]
    · unfold rollingStdSqAt sampleVar?
      rw [h0]
      simp

theorem C8_witness :
    (0 < 5 ∧ (0:Nat) < 3)
    ∧ ((trailingWindow [Frac.ofInt 70, Frac.ofInt 95, Frac.ofInt 96] 5 0).length = min 5 (0 + 1)
    ∧ (5 - 1 ≤ 0 → (trailingWindow [Frac.ofInt 70, Frac.ofInt 95, Frac.ofInt 96] 5 0).length = 5)
    ∧ (0 = 0 → rollingMeanAt [Frac.ofInt 70, Frac.ofInt 95, Frac.ofInt 96] 5 0
          = [Frac.ofInt 70, Frac.ofInt 95, Frac.ofInt 96].getD 0 Frac.zero
        ∧ rollingStdSqAt [Frac.ofInt 70, Frac.ofInt 95, Frac.ofInt 96] 5 0 = Option.none)) :=
  ⟨⟨by decide, by decide⟩,
   C8_rolling_window [Frac.ofInt 70, Frac.ofInt 95, Frac.ofInt 96] 5 (by decide) 0 (by decide)⟩

theorem rapidFlags_length (xs : List Frac) (t : Frac) :
    (rapidFlags xs t).length = xs.length := by
  unfold rapidFlags hrChangeList
  simp

theorem rapidFlags_getD (xs : List Frac) (t : Frac) (k : Nat) (hk : k < xs.length) :
    (rapidFlags xs t).getD k 0 =
      match k with
      | 0 => 0
      | Nat.succ j =>
        if Frac.lt t (Frac.abs ((xs.getD k Frac.zero).sub (xs.getD j Frac.zero))) then 1 else 0 := by
  have hl : k < (rapidFlags xs t).length := by rw [rapidFlags_length]; exact hk
  rw [List.getD_eq_getElem _ _ hl]
  unfold rapidFlags hrChangeList
  simp only [List.getElem_map, List.getElem_range]
  cases k <;> simp

/-- C9: rapid-change detection flags a record iff the absolute difference
from the immediately preceding heart rate strictly exceeds the threshold;
the first record, whose change is undefined (nan), is never flagged. -/
theorem C9_rapid_change (xs : List Frac) (t : Frac) (i : Nat) (hi : i < xs.length) :
    (rapidFlags xs t).length = xs.length
    ∧ (rapidFlags xs t).getD 0 0 = 0
    ∧ (∀ j, i = j + 1 →
        ((rapidFlags xs t).getD i 0 = 1 ↔
          Frac.lt t (Frac.abs ((xs.getD i Frac.zero).sub (xs.getD j Frac.zero))))) := by
  refine ⟨rapidFlags_length xs t, ?_, ?_⟩
  · by_cases h0 : 0 < xs.length
    · rw [rapidFlags_getD xs t 0 h0]
    · have : xs.length = 0 := by omega
      have : (rapidFlags xs t).length = 0 := by rw [rapidFlags_length]; omega
      rw [List.length_eq_zero] at this
      rw [this]
      rfl
  · intro j hj
    subst hj
    rw [rapidFlags_getD xs t (j + 1) hi]
    by_cases hlt : Frac.lt t (Frac.abs ((xs.getD (j + 1) Frac.zero).sub (xs.getD j Frac.zero)))
    · simp [hlt]
    · simp [hlt]

theorem C9_witness :
    ((1:Nat) < 3)
    ∧ (rapidFlags [Frac.ofInt 70, Frac.ofInt 95, Frac.ofInt 96] (Frac.ofInt 20)
        = [0, 1, 0])
    ∧ ((rapidFlags [Frac.ofInt 70, Frac.ofInt 95, Frac.ofInt 96] (Frac.ofInt 20)).length = 3
    ∧ (rapidFlags [Frac.ofInt 70, Frac.ofInt 95, Frac.ofInt 96] (Frac.ofInt 20)).getD 0 0 = 0
    ∧ (∀ j, 1 = j + 1 →
        ((rapidFlags [Frac.ofInt 70, Frac.ofInt 95, Frac.ofInt 96] (Frac.ofInt 20)).getD 1 0 = 1 ↔
          Frac.lt (Frac.ofInt 20)
            (Frac.abs (([Frac.ofInt 70, Frac.ofInt 95, Frac.ofInt 96].getD 1 Frac.zero).sub
              ([Frac.ofInt 70, Frac.ofInt 95, Frac.ofInt 96].getD j Frac.zero)))))) :=
  ⟨by decide, by decide,
   C9_rapid_change [Frac.ofInt 70, Frac.ofInt 95, Frac.ofInt 96] (Frac.ofInt 20) 1 (by decide)⟩

/-- C7: a record missing at least one required field is invalid, with an
error message naming exactly the first missing field in `REQUIRED_FIELDS`
order, and the result is determined by field presence alone (no value of any
field influences it). -/
theorem C7_missing_required_field (r : PyRecord)
    (h : ∃ f ∈ REQUIRED_FIELDS, recGet r f = Option.none) :
    ∃ f ∈ REQUIRED_FIELDS, recGet r f = Option.none
      ∧ validate_record r = (false, some ("Missing required field: " ++ f))
      ∧ ∀ f2 ∈ REQUIRED_FIELDS, recGet r f2 = Option.none →
          REQUIRED_FIELDS.indexOf f ≤ REQUIRED_FIELDS.indexOf f2 := by
  by_cases h1 : recGet r "timestamp" = Option.none
  · refine ⟨"timestamp", by decide, h1, ?_, ?_⟩
    · unfold validate_record
      have : REQUIRED_FIELDS.find? (fun f => (recGet r f).isNone) = some "timestamp" := by
        unfold REQUIRED_FIELDS
        rw [List.find?_cons_of_pos]
        simp [h1]
      rw [this]
    · intro f2 _ _
      have : REQUIRED_FIELDS.indexOf "timestamp" = 0 := by decide
      omega
  · by_cases h2 : recGet r "heartRate" = Option.none
    · refine ⟨"heartRate", by decide, h2, ?_, ?_⟩
      · unfold validate_record
        have : REQUIRED_FIELDS.find? (fun f => (recGet r f).isNone) = some "heartRate" := by
          unfold REQUIRED_FIELDS
          rw [List.find?_cons_of_neg, List.find?_cons_of_pos]
          · simp [h2]
          · simp [h1]
        rw [this]
      · intro f2 hf2 hnone
        simp only [REQUIRED_FIELDS, List.mem_cons, List.mem_singleton] at hf2
        rcases hf2 with rfl | rfl | rfl | hf2
        · exact absurd hnone h1
        · decide
        · decide
        · simp at hf2; subst hf2; decide
    · by_cases h3 : recGet r "hrv" = Option.none
      · refine ⟨"hrv", by decide, h3, ?_, ?_⟩
        · unfold validate_record
          have : REQUIRED_FIELDS.find? (fun f => (recGet r f).isNone) = some "hrv" := by
            unfold REQUIRED_FIELDS
            rw [List.find?_cons_of_neg, List.find?_cons_of_neg, List.find?_cons_of_pos]
            · simp [h3]
            · simp [h2]
            · simp [h1]
          rw [this]
        · intro f2 hf2 hnone
          simp only [REQUIRED_FIELDS, List.mem_cons, List.mem_singleton] at hf2
          rcases hf2 with rfl | rfl | rfl | hf2
          · exact absurd hnone h1
          · exact absurd hnone h2
          · decide
          · simp at hf2; subst hf2; decide
      · by_cases h4 : recGet r "activity" = Option.none
        · refine ⟨"activity", by decide, h4, ?_, ?_⟩
          · unfold validate_record
            have : REQUIRED_FIELDS.find? (fun f => (recGet r f).isNone) = some "activity" := by
              unfold REQUIRED_FIELDS
              rw [List.find?_cons_of_neg, List.find?_cons_of_neg, List.find?_cons_of_neg,
                List.find?_cons_of_pos]
              · simp [h4]
              · simp [h3]
              · simp [h2]
              · simp [h1]
            rw [this]
          · intro f2 hf2 hnone
            simp only [REQUIRED_FIELDS, List.mem_cons, List.mem_singleton] at hf2
            rcases hf2 with rfl | rfl | rfl | hf2
            · exact absurd hnone h1
            · exact absurd hnone h2
            · exact absurd hnone h3
            · simp at hf2; subst hf2
              decide
        · exfalso
          obtain ⟨f, hf, hnone⟩ := h
          simp only [REQUIRED_FIELDS, List.mem_cons, List.mem_singleton] at hf
          rcases hf with rfl | rfl | rfl | hf
          · exact h1 hnone
          · exact h2 hnone
          · exact h3 hnone
          · simp at hf; subst hf; exact h4 hnone

theorem C7_witness :
    (∃ f ∈ REQUIRED_FIELDS, recGet [("device", Value.str "x")] f = Option.none)
    ∧ ∃ f ∈ REQUIRED_FIELDS, recGet [("device", Value.str "x")] f = Option.none
      ∧ validate_record [("device", Value.str "x")]
          = (false, some ("Missing required field: " ++ f))
      ∧ ∀ f2 ∈ REQUIRED_FIELDS, recGet [("device", Value.str "x")] f2 = Option.none →
          REQUIRED_FIELDS.indexOf f ≤ REQUIRED_FIELDS.indexOf f2 :=
  ⟨by decide, C7_missing_required_field [("device", Value.str "x")] (by decide)⟩

/-- C2 (amended): the daily pattern is deterministic given the start
timestamp and parameters — its seed argument is the start's integer seconds
modulo 1000, so congruent starts seed identically, and the ambient numpy
state never influences the output because the generator reseeds before
drawing.  The episode pattern is not covered: it never reseeds (see the
counterexample). -/
theorem C2_daily_determinism (d1 d2 : Int) (n : Nat) (bh : Int) (nl : Frac)
    (g1 g2 : RNG) (hcong : d1 % 1000 = d2 % 1000) :
    dailySeed d1 = dailySeed d2
    ∧ (d1 = d2 → generate_daily_pattern d1 n bh nl g1 = generate_daily_pattern d2 n bh nl g2) := by
  constructor
  · unfold dailySeed
    rw [hcong]
  · intro h
    subst h
    rfl

theorem C2_witness :
    ((1000 : Int) % 1000 = (1000 : Int) % 1000)
    ∧ (dailySeed 1000 = dailySeed 1000
    ∧ ((1000 : Int) = 1000 →
        generate_daily_pattern 1000 4 70 (Frac.ofInt 5) (fun _ => 0)
          = generate_daily_pattern 1000 4 70 (Frac.ofInt 5) (fun _ => 99))) :=
  ⟨rfl, C2_daily_determinism 1000 1000 4 70 (Frac.ofInt 5) (fun _ => 0) (fun _ => 99) rfl⟩

/-- C2 (counterexample): the episode pattern is not deterministic given the
start timestamp — with identical start time and duration, two ambient numpy
generator states yield different batches, because `generate_tpp_episode`
never seeds the generator. -/
theorem C2_counterexample :
    (generate_tpp_episode 0 120 (fun _ => 0)).1 ≠ (generate_tpp_episode 0 120 (fun _ => 1)).1 := by
  decide

/-- C4: on the empty batch that has a `heartRate` column, `analyze_data`
raises `ZeroDivisionError` while computing the anomaly percentage
`len(anomalies) / len(df)`, instead of returning a structured report. -/
theorem C4_empty_batch_raises :
    errText (analyze_data emptyHeartRateFrame) = some "ZeroDivisionError: division by zero"
    ∧ reportOf emptyHeartRateFrame = Option.none := by
  decide

theorem colFind_cons_true (p : String × List Value → Bool) (a : String × List Value)
    (l : List (String × List Value)) (h : p a = true) :
    List.find? p (a :: l) = some a := by
  simp [List.find?, h]

theorem colFind_cons_false (p : String × List Value → Bool) (a : String × List Value)
    (l : List (String × List Value)) (h : p a = false) :
    List.find? p (a :: l) = List.find? p l := by
  simp [List.find?, h]

theorem find?_map_overwrite (l : List (String × List Value)) (nm c : String)
    (vs : List Value) (h : ¬ c = nm) :
    (l.map (fun x => if x.1 = nm then (nm, vs) else x)).find? (fun x => x.1 = c)
      = l.find? (fun x => x.1 = c) := by
  induction l with
  | nil => rfl
  | cons a l ih =>
    rw [List.map_cons]
    by_cases ha : a.1 = nm
    · rw [if_pos ha]
      rw [colFind_cons_false _ _ _ (by simp; intro hc; exact h hc.symm),
        colFind_cons_false _ _ _ (by simp; intro hc; rw [hc] at ha; exact h ha)]
      exact ih
    · rw [if_neg ha]
      by_cases hc : a.1 = c
      · rw [colFind_cons_true _ _ _ (by simp [hc]), colFind_cons_true _ _ _ (by simp [hc])]
      · rw [colFind_cons_false _ _ _ (by simp [hc]), colFind_cons_false _ _ _ (by simp [hc])]
        exact ih

theorem getCol_setCol_ne (df : DataFrame) (nm c : String) (vs : List Value)
    (h : ¬ c = nm) :
    getCol (setCol df nm vs) c = getCol df c := by
  unfold setCol getCol
  split
  · rw [find?_map_overwrite df.cols nm c vs h]
  · rw [List.find?_append]
    have hnone : List.find? (fun x => x.1 = c) [(nm, vs)] = Option.none := by
      simp
      intro hc
      exact h hc.symm
    rw [hnone]
    cases List.find? (fun x => x.1 = c) df.cols <;> rfl

theorem hasCol_setCol_self (df : DataFrame) (nm : String) (vs : List Value) :
    hasCol (setCol df nm vs) nm = true := by
  unfold setCol
  split
  · rename_i hhas
    unfold hasCol at hhas ⊢
    rw [List.any_eq_true] at hhas ⊢
    obtain ⟨a, hmem, ha⟩ := hhas
    refine ⟨(nm, vs), List.mem_map.mpr ⟨a, hmem, ?_⟩, by simp⟩
    simp at ha
    simp [ha]
  · unfold hasCol
    rw [List.any_eq_true]
    exact ⟨(nm, vs), List.mem_append_right _ (by simp), by simp⟩

theorem anomalySection_frame (df : DataFrame) (a : Option AnomalyBlock)
    (h2 : Option (List Frac)) (df2 : DataFrame)
    (h : anomalySection df = Except.ok (a, h2, df2)) :
    (getCol df "heartRate" = Option.none ∧ df2 = df)
    ∨ (getCol df "heartRate" ≠ Option.none
        ∧ ∃ hrs, df2 = setCol df "hr_zscore" ((zscoreSq hrs).map Value.num)) := by
  unfold anomalySection at h
  split at h
  · rename_i hcol
    simp at h
    exact Or.inl ⟨hcol, h.2.2.symm⟩
  · rename_i col hcol
    split at h
    · cases h
    · rename_i hrs hfr
      refine Or.inr ⟨by rw [hcol]; simp, hrs, ?_⟩
      split at h
      · cases h
      · split at h
        · simp at h
          exact h.2.2.symm
        · cases h
        · simp at h
          exact h.2.2.symm

theorem analyze_frame (df : DataFrame) (p : Report × DataFrame)
    (h : analyze_data df = Except.ok p) :
    ∃ a h2, anomalySection df = Except.ok (a, h2, p.2) := by
  unfold analyze_data at h
  cases hA : anomalySection df with
  | error e => rw [hA] at h; cases h
  | ok t =>
    obtain ⟨a, h2, df2⟩ := t
    rw [hA] at h
    simp at h
    refine ⟨a, h2, ?_⟩
    rw [← h]

/-- C3 (amended): `analyze_data` leaves every pre-existing column's name and
cells unchanged, and when no `heartRate` column exists it does not touch the
frame at all; but when a `heartRate` column exists it adds the derived
`hr_zscore` column to its input frame in place (the input is mutated, not
pure). -/
theorem C3_mutation_extent (df : DataFrame)
    (h : (analyze_data df).toOption.isSome = true) :
    (∀ c, ¬ c = "hr_zscore" → getCol (postState df) c = getCol df c)
    ∧ (getCol df "heartRate" = Option.none → postState df = df)
    ∧ (getCol df "heartRate" ≠ Option.none → hasCol (postState df) "hr_zscore" = true) := by
  cases hres : analyze_data df with
  | error e => rw [hres] at h; cases h
  | ok p =>
    have hpost : postState df = p.2 := by unfold postState; rw [hres]; rfl
    obtain ⟨a, h2, hA⟩ := analyze_frame df p hres
    rcases anomalySection_frame df a h2 p.2 hA with ⟨hnone, heq⟩ | ⟨hsome, hrs, heq⟩
    · exact ⟨fun c _ => by rw [hpost, heq], fun _ => by rw [hpost, heq],
        fun hc => absurd hnone hc⟩
    · refine ⟨fun c hc => ?_, fun hc => absurd hc hsome, fun _ => ?_⟩
      · rw [hpost, heq, getCol_setCol_ne df "hr_zscore" c _ hc]
      · rw [hpost, heq]
        exact hasCol_setCol_self df "hr_zscore" _

theorem C3_witness :
    ((analyze_data dfMutationCex).toOption.isSome = true)
    ∧ ((∀ c, ¬ c = "hr_zscore" → getCol (postState dfMutationCex) c = getCol dfMutationCex c)
    ∧ (getCol dfMutationCex "heartRate" = Option.none → postState dfMutationCex = dfMutationCex)
    ∧ (getCol dfMutationCex "heartRate" ≠ Option.none →
        hasCol (postState dfMutationCex) "hr_zscore" = true)) :=
  ⟨by decide, C3_mutation_extent dfMutationCex (by decide)⟩

/-- C3 (counterexample): on a concrete two-row batch with a heartRate column
the analysis succeeds, yet afterwards the input frame carries a new
`hr_zscore` column — the input is not left unchanged. -/
theorem C3_counterexample :
    (analyze_data dfMutationCex).toOption.isSome = true
    ∧ (postState dfMutationCex).cols.map (fun c => c.1) = ["timestamp", "heartRate", "hr_zscore"]
    ∧ dfMutationCex.cols.map (fun c => c.1) = ["timestamp", "heartRate"]
    ∧ postState dfMutationCex ≠ dfMutationCex := by
  decide

theorem Frac.div_def_zero (a b : Frac) (h : b.num = 0) : a.div b = ⟨0, 1⟩ := by
  unfold Frac.div
  rw [if_pos h]

theorem Frac.div_def_pos (a b : Frac) (h : 0 < b.num) :
    a.div b = ⟨a.num * b.den, a.den * b.num⟩ := by
  unfold Frac.div
  rw [if_neg (by omega), if_pos h]

theorem Frac.div_def_neg (a b : Frac) (h : b.num < 0) :
    a.div b = ⟨-(a.num * b.den), -(a.den * b.num)⟩ := by
  unfold Frac.div
  rw [if_neg (by omega), if_neg (by omega)]

theorem Frac.div_ofInt_pos (a : Frac) (n : Int) (hn : 0 < n) :
    a.div (Frac.ofInt n) = ⟨a.num, a.den * n⟩ := by
  rw [Frac.div_def_pos a (Frac.ofInt n) hn]
  unfold Frac.ofInt
  simp

theorem fracSum_const (xs : List Frac) (v : Frac) (hconst : ∀ x ∈ xs, x = v) :
    (fracSum xs).num * v.den = (xs.length : Int) * v.num * (fracSum xs).den := by
  induction xs with
  | nil => simp [fracSum, Frac.zero]
  | cons x xs ih =>
    have hx : x = v := hconst x (by simp)
    have ih2 := ih (fun y hy => hconst y (by simp [hy]))
    subst hx
    have hstep : fracSum (x :: xs) = Frac.add x (fracSum xs) := rfl
    rw [hstep]
    unfold Frac.add
    dsimp only
    simp only [List.length_cons]
    push_cast
    linear_combination x.den * ih2

theorem fracMean_const_eqv (xs : List Frac) (v : Frac) (hne : xs ≠ [])
    (hconst : ∀ x ∈ xs, x = v) :
    v.num * (fracMean xs).den = (fracMean xs).num * v.den := by
  have hlen : 0 < xs.length := List.length_pos.mpr hne
  have hsum := fracSum_const xs v hconst
  unfold fracMean
  rw [Frac.div_ofInt_pos _ _ (by exact_mod_cast hlen)]
  dsimp only
  linear_combination -hsum

theorem anomalyIdx_of_const (xs : List Frac) (v : Frac) (hconst : ∀ x ∈ xs, x = v) :
    anomalyIdx xs = [] := by
  unfold anomalyIdx
  rw [List.filter_eq_nil_iff]
  intro i hi
  rw [List.mem_range] at hi
  simp only [decide_eq_true_eq]
  have hzlen : i < (zscoreSq xs).length := by unfold zscoreSq; simpa
  rw [List.getD_eq_getElem _ _ hzlen]
  unfold zscoreSq
  rw [List.getElem_map]
  have hxi : xs[i] = v := hconst _ (List.getElem_mem hi)
  rw [hxi]
  have hne : xs ≠ [] := by
    intro h0
    rw [h0] at hi
    simp at hi
  have hsub : (v.sub (fracMean xs)).num = 0 := by
    unfold Frac.sub
    have := fracMean_const_eqv xs v hne hconst
    dsimp only
    omega
  have hsqnum : ((v.sub (fracMean xs)).sq).num = 0 := by
    unfold Frac.sq Frac.mul
    dsimp only
    rw [hsub, zero_mul]
  have hsqden : 0 ≤ ((v.sub (fracMean xs)).sq).den := by
    unfold Frac.sq Frac.mul
    dsimp only
    exact mul_self_nonneg _
  rcases lt_trichotomy (popVar xs).num 0 with hn | hn | hn
  · rw [Frac.div_def_neg _ _ hn, hsqnum]
    unfold Frac.lt Frac.ofInt
    dsimp only
    have hd := mul_nonneg hsqden (neg_nonneg.mpr hn.le)
    rw [mul_neg] at hd
    omega
  · rw [Frac.div_def_zero _ _ hn]
    unfold Frac.lt Frac.ofInt
    dsimp only
    omega
  · rw [Frac.div_def_pos _ _ hn, hsqnum]
    unfold Frac.lt Frac.ofInt
    dsimp only
    have hd := mul_nonneg hsqden hn.le
    omega

/-- C6: on a non-empty batch whose heart rates are all equal (zero variance),
analysis completes without a division error and the anomaly block reports a
count of zero and an empty record list (every z-score is the nan/zero
sentinel and nan comparisons never flag). -/
theorem C6_zero_variance (df : DataFrame) (col : List Value) (hrs : List Frac) (v : Frac)
    (hcol : getCol df "heartRate" = some col)
    (hfr : colFracs? col = some hrs)
    (hne : hrs ≠ [])
    (hconst : ∀ x ∈ hrs, x = v)
    (hlen : df.len = hrs.length) :
    (analyze_data df).toOption.isSome = true
    ∧ (anomalyBlockOf df).map (fun a => (a.count, a.records)) = some (0, []) := by
  have hidx := anomalyIdx_of_const hrs v hconst
  have hn0 : ¬ df.len = 0 := by
    rw [hlen]
    intro h0
    exact hne (List.length_eq_zero.mp h0)
  have hA : anomalySection df = Except.ok
      (some { count := 0
              percentage := ((Frac.ofInt 0).div (Frac.ofInt df.len)).mul (Frac.ofInt 100)
              threshold := Frac.ofInt 2
              records := [] }, some hrs,
       setCol df "hr_zscore" ((zscoreSq hrs).map Value.num)) := by
    unfold anomalySection
    rw [hcol]
    simp only [hfr, hidx, hn0, if_false]
  unfold anomalyBlockOf reportOf analyze_data
  rw [hA]
  exact ⟨rfl, rfl⟩

theorem C6_witness :
    (getCol dfConstantHr "heartRate" = some (List.replicate 20 (Value.int 70))
      ∧ colFracs? (List.replicate 20 (Value.int 70)) = some (List.replicate 20 (Frac.ofInt 70))
      ∧ List.replicate 20 (Frac.ofInt 70) ≠ []
      ∧ (∀ x ∈ List.replicate 20 (Frac.ofInt 70), x = Frac.ofInt 70)
      ∧ dfConstantHr.len = (List.replicate 20 (Frac.ofInt 70)).length)
    ∧ ((analyze_data dfConstantHr).toOption.isSome = true
      ∧ (anomalyBlockOf dfConstantHr).map (fun a => (a.count, a.records)) = some (0, [])) :=
  ⟨⟨by decide, by decide, by decide, by decide, by decide⟩,
   C6_zero_variance dfConstantHr (List.replicate 20 (Value.int 70))
     (List.replicate 20 (Frac.ofInt 70)) (Frac.ofInt 70)
     (by decide) (by decide) (by decide) (by decide) (by decide)⟩

theorem mem_firstAppear (xs : List Value) (a : Value) : a ∈ firstAppear xs ↔ a ∈ xs := by
  induction xs with
  | nil => simp [firstAppear]
  | cons x l ih =>
    simp only [firstAppear, List.mem_cons, List.mem_filter]
    constructor
    · rintro (rfl | ⟨h1, _⟩)
      · exact Or.inl rfl
      · exact Or.inr (ih.mp h1)
    · rintro (rfl | h)
      · exact Or.inl rfl
      · by_cases hax : a = x
        · exact Or.inl hax
        · exact Or.inr ⟨ih.mpr h, by simp [hax]⟩

theorem nodup_firstAppear (xs : List Value) : (firstAppear xs).Nodup := by
  induction xs with
  | nil => simp [firstAppear]
  | cons x l ih =>
    rw [firstAppear]
    rw [List.nodup_cons]
    refine ⟨?_, List.Nodup.filter _ ih⟩
    intro hmem
    rw [List.mem_filter] at hmem
    simp at hmem

theorem firstAppear_perm_dedup (xs : List Value) : (firstAppear xs).Perm xs.dedup := by
  rw [List.perm_ext_iff_of_nodup (nodup_firstAppear xs) (List.nodup_dedup xs)]
  intro a
  rw [mem_firstAppear, List.mem_dedup]

theorem sum_counts_firstAppear (xs : List Value) :
    ((firstAppear xs).map (fun v => xs.count v)).sum = xs.length := by
  have hperm := (firstAppear_perm_dedup xs).map (fun v => xs.count v)
  rw [hperm.sum_eq]
  exact List.sum_map_count_dedup_eq_length xs

theorem valueCounts_perm (xs : List Value) :
    (valueCounts xs).Perm ((firstAppear xs).map (fun v => (v, xs.count v))) :=
  List.perm_insertionSort _ _

theorem mem_valueCounts (xs : List Value) (p : Value × Nat) :
    p ∈ valueCounts xs ↔ p.1 ∈ xs ∧ p.2 = xs.count p.1 := by
  rw [(valueCounts_perm xs).mem_iff, List.mem_map]
  constructor
  · rintro ⟨v, hv, rfl⟩
    exact ⟨(mem_firstAppear xs v).mp hv, rfl⟩
  · intro h
    obtain ⟨v, c⟩ := p
    obtain ⟨h1, h2⟩ := h
    dsimp only at h2
    exact ⟨v, (mem_firstAppear xs v).mpr h1, by rw [h2]⟩

theorem valueCounts_keys_perm (xs : List Value) :
    ((valueCounts xs).map (fun p => p.1)).Perm (firstAppear xs) := by
  have h := (valueCounts_perm xs).map (fun p : Value × Nat => p.1)
  have he : List.map (fun p : Value × Nat => p.1)
      ((firstAppear xs).map (fun v => (v, xs.count v))) = firstAppear xs := by
    induction firstAppear xs with
    | nil => rfl
    | cons a l ih => simp [ih]
  rw [he] at h
  exact h

theorem valueCounts_sorted (xs : List Value) :
    (valueCounts xs).Pairwise countGe :=
  List.sorted_insertionSort countGe ((firstAppear xs).map (fun v => (v, xs.count v)))

theorem breakdownOf_eq (df : DataFrame) (acts : List Value)
    (hok : (analyze_data df).toOption.isSome = true)
    (hcol : getCol df "activity" = some acts) :
    breakdownOf df = activityBreakdown acts df.len := by
  cases hA : anomalySection df with
  | error e =>
    exfalso
    unfold analyze_data at hok
    rw [hA] at hok
    cases hok
  | ok t =>
    obtain ⟨a, h2, df2⟩ := t
    unfold breakdownOf reportOf analyze_data
    rw [hA]
    show (match getCol df "activity" with
          | Option.none => []
          | some acts => activityBreakdown acts df.len) = _
    rw [hcol]

/-- C1 (amended): for a non-empty batch with an activity column, the
Analysis Report's activity breakdown enumerates exactly the distinct
activity values (no repeats, nothing missing), each with its count in the
batch and with count/total·100 as its percentage, and the enumeration is in
order of non-increasing count (`value_counts` order; the model's stable sort
keeps ties in first-appearance order) — not in order of first appearance. -/
theorem C1_breakdown_value_counts (df : DataFrame) (acts : List Value)
    (hcol : getCol df "activity" = some acts) (hne : acts ≠ [])
    (hok : (analyze_data df).toOption.isSome = true) :
    (∀ e ∈ breakdownOf df, e.1 ∈ acts ∧ e.2.1 = acts.count e.1
        ∧ e.2.2 = ((Frac.ofInt (acts.count e.1)).div (Frac.ofInt df.len)).mul (Frac.ofInt 100))
    ∧ ((breakdownOf df).map (fun e => e.1)).Nodup
    ∧ (∀ v, (v ∈ (breakdownOf df).map (fun e => e.1)) ↔ v ∈ acts)
    ∧ ((breakdownOf df).map (fun e => e.2.1)).sum = acts.length
    ∧ (breakdownOf df).Pairwise (fun p q => q.2.1 ≤ p.2.1) := by
  rw [breakdownOf_eq df acts hok hcol]
  unfold activityBreakdown
  refine ⟨?_, ?_, ?_, ?_, ?_⟩
  · intro e he
    rw [List.mem_map] at he
    obtain ⟨p, hp, rfl⟩ := he
    obtain ⟨hp1, hp2⟩ := (mem_valueCounts acts p).mp hp
    exact ⟨hp1, by rw [hp2], by rw [hp2]⟩
  · have he : List.map (fun e : Value × Nat × Frac => e.1)
        ((valueCounts acts).map (fun p => (p.1, p.2,
          ((Frac.ofInt p.2).div (Frac.ofInt df.len)).mul (Frac.ofInt 100))))
        = (valueCounts acts).map (fun p => p.1) := by
      rw [List.map_map]
      rfl
    rw [he]
    exact ((valueCounts_keys_perm acts).nodup_iff).mpr (nodup_firstAppear acts)
  · intro v
    have he : List.map (fun e : Value × Nat × Frac => e.1)
        ((valueCounts acts).map (fun p => (p.1, p.2,
          ((Frac.ofInt p.2).div (Frac.ofInt df.len)).mul (Frac.ofInt 100))))
        = (valueCounts acts).map (fun p => p.1) := by
      rw [List.map_map]
      rfl
    rw [he, (valueCounts_keys_perm acts).mem_iff, mem_firstAppear]
  · have he : List.map (fun e : Value × Nat × Frac => e.2.1)
        ((valueCounts acts).map (fun p => (p.1, p.2,
          ((Frac.ofInt p.2).div (Frac.ofInt df.len)).mul (Frac.ofInt 100))))
        = (valueCounts acts).map (fun p => p.2) := by
      rw [List.map_map]
      rfl
    rw [he]
    have hperm := (valueCounts_perm acts).map (fun p : Value × Nat => p.2)
    rw [hperm.sum_eq, List.map_map]
    have he2 : List.map ((fun p : Value × Nat => p.2) ∘ fun v => (v, acts.count v))
        (firstAppear acts) = (firstAppear acts).map (fun v => acts.count v) := rfl
    rw [he2]
    exact sum_counts_firstAppear acts
  · rw [List.pairwise_map]
    exact valueCounts_sorted acts

theorem C1_witness :
    (getCol dfBreakdownWitness "activity"
        = some [Value.str "resting", Value.str "walking", Value.str "walking",
                Value.str "sleeping"]
      ∧ ([Value.str "resting", Value.str "walking", Value.str "walking",
          Value.str "sleeping"] : List Value) ≠ []
      ∧ (analyze_data dfBreakdownWitness).toOption.isSome = true)
    ∧ ((∀ e ∈ breakdownOf dfBreakdownWitness,
          e.1 ∈ [Value.str "resting", Value.str "walking", Value.str "walking",
                 Value.str "sleeping"]
          ∧ e.2.1 = [Value.str "resting", Value.str "walking", Value.str "walking",
                 Value.str "sleeping"].count e.1
          ∧ e.2.2 = ((Frac.ofInt ([Value.str "resting", Value.str "walking",
                 Value.str "walking", Value.str "sleeping"].count e.1)).div
                (Frac.ofInt dfBreakdownWitness.len)).mul (Frac.ofInt 100))
      ∧ ((breakdownOf dfBreakdownWitness).map (fun e => e.1)).Nodup
      ∧ (∀ v, (v ∈ (breakdownOf dfBreakdownWitness).map (fun e => e.1)) ↔
          v ∈ [Value.str "resting", Value.str "walking", Value.str "walking",
               Value.str "sleeping"])
      ∧ ((breakdownOf dfBreakdownWitness).map (fun e => e.2.1)).sum
          = [Value.str "resting", Value.str "walking", Value.str "walking",
             Value.str "sleeping"].length
      ∧ (breakdownOf dfBreakdownWitness).Pairwise (fun p q => q.2.1 ≤ p.2.1)) :=
  ⟨⟨by decide, by decide, by decide⟩,
   C1_breakdown_value_counts dfBreakdownWitness
     [Value.str "resting", Value.str "walking", Value.str "walking", Value.str "sleeping"]
     (by decide) (by decide) (by decide)⟩

/-- C1 (counterexample): on the batch with activities [resting, walking,
walking] the breakdown enumerates walking first (most frequent), not resting
(first appearance) — the claimed first-appearance order does not hold. -/
theorem C1_counterexample :
    (analyze_data dfBreakdownCex).toOption.isSome = true
    ∧ (breakdownOf dfBreakdownCex).map (fun e => e.1)
        = [Value.str "walking", Value.str "resting"]
    ∧ firstAppear [Value.str "resting", Value.str "walking", Value.str "walking"]
        = [Value.str "resting", Value.str "walking"]
    ∧ (breakdownOf dfBreakdownCex).map (fun e => e.1)
        ≠ firstAppear [Value.str "resting", Value.str "walking", Value.str "walking"] := by
  decide

theorem choiceDraw_mem (opts : List String) (g : RNG) (h : opts ≠ []) :
    (choiceDraw opts g).1 ∈ opts := by
  unfold choiceDraw
  have hlen : 0 < opts.length := List.length_pos.mpr h
  have hlt : g 0 % opts.length < opts.length := Nat.mod_lt _ hlen
  rw [List.getD_eq_getElem _ _ hlt]
  exact List.getElem_mem hlt

theorem dailyBranch_activity (bh hour : Int) (g : RNG) :
    (dailyBranch bh hour g).1.1 ∈ VALID_ACTIVITIES := by
  unfold dailyBranch
  split_ifs with h1 h2 h3 h4 h5 <;> dsimp only
  · decide
  · decide
  · split_ifs with ha hb <;> dsimp only <;>
      exact (show ["walking", "resting", "exercise"] ⊆ VALID_ACTIVITIES by decide)
        (choiceDraw_mem ["walking", "resting", "exercise"] g (by decide))
  · exact (show ["walking", "resting"] ⊆ VALID_ACTIVITIES by decide)
      (choiceDraw_mem ["walking", "resting"] g (by decide))
  · decide
  · decide

theorem clampHr_bounds (q : Frac) : 40 ≤ clampHr q ∧ clampHr q ≤ 200 :=
  ⟨le_max_left _ _, max_le (by norm_num) (min_le_left _ _)⟩

theorem clampHrv_bound (q : Frac) : 10 ≤ clampHrv q := le_max_left _ _

theorem validate_record_generated (t hr hrv : Int) (act dev : String)
    (hact : act ∈ VALID_ACTIVITIES) (h40 : 40 ≤ hr) (h200 : hr ≤ 200) (h10 : 10 ≤ hrv) :
    validate_record [("timestamp", Value.isoStr t), ("heartRate", Value.int hr),
      ("hrv", Value.int hrv), ("activity", Value.str act), ("device", Value.str dev)]
      = (true, Option.none) := by
  have hhr : ¬ (Frac.lt (Frac.ofInt hr) (Frac.ofInt 30) ∨ Frac.lt (Frac.ofInt 220) (Frac.ofInt hr)) := by
    unfold Frac.lt Frac.ofInt
    dsimp only
    omega
  have hhrv : ¬ Frac.lt (Frac.ofInt hrv) (Frac.ofInt 0) := by
    unfold Frac.lt Frac.ofInt
    dsimp only
    omega
  unfold validate_record
  simp [recGet, REQUIRED_FIELDS, List.find?, parseTimestamp, Value.asFrac, hhr, hhrv, hact]

theorem dailyRecord_shape (date bh : Int) (nl : Frac) (i : Nat) (g : RNG) :
    (dailyRecord date bh nl i g).1
      = [("timestamp", Value.isoStr (date + 1800 * (i : Int))),
         ("heartRate", Value.int (clampHr
           ((dailyBranch bh (hourOf (date + 1800 * (i : Int))) g).1.2.1.add
             (normalDraw nl (dailyBranch bh (hourOf (date + 1800 * (i : Int))) g).2).1))),
         ("hrv", Value.int (clampHrv (dailyBranch bh (hourOf (date + 1800 * (i : Int))) g).1.2.2)),
         ("activity", Value.str (dailyBranch bh (hourOf (date + 1800 * (i : Int))) g).1.1),
         ("device", Value.str "Synthetic Generator")] := rfl

theorem mem_dailyLoop (date bh : Int) (nl : Frac) (k : Nat) :
    ∀ (i : Nat) (g : RNG) (r : PyRecord), r ∈ dailyLoop date bh nl i k g →
      ∃ j g2, r = (dailyRecord date bh nl j g2).1 := by
  induction k with
  | zero =>
    intro i g r hr
    cases hr
  | succ k ih =>
    intro i g r hr
    rw [dailyLoop] at hr
    rcases List.mem_cons.mp hr with hhead | htail
    · exact ⟨i, g, hhead⟩
    · exact ih (i + 1) _ r htail

/-- C10: every record of `generate_daily_pattern` — for any start date,
record count, base heart rate, noise level, and ambient generator state —
passes `validate_record`: its heart rate is an integer clamped into
[40, 200] ⊂ [30, 220], its HRV is an integer ≥ 10, its activity is one of
the four enum values, and its timestamp cell parses back to an instant; the
generated batch is already conformant. -/
theorem C10_daily_conformant (date : Int) (n : Nat) (bh : Int) (nl : Frac) (g : RNG)
    (r : PyRecord) (hr : r ∈ generate_daily_pattern date n bh nl g) :
    validate_record r = (true, Option.none)
    ∧ (∃ h, recGet r "heartRate" = some (Value.int h) ∧ 40 ≤ h ∧ h ≤ 200)
    ∧ (∃ v, recGet r "hrv" = some (Value.int v) ∧ 10 ≤ v)
    ∧ (∃ a, recGet r "activity" = some (Value.str a) ∧ a ∈ VALID_ACTIVITIES)
    ∧ (∃ tv tm, recGet r "timestamp" = some tv ∧ parseTimestamp tv = some tm) := by
  unfold generate_daily_pattern at hr
  obtain ⟨j, g2, rfl⟩ := mem_dailyLoop date bh nl n 0 _ r hr
  rw [dailyRecord_shape]
  have hact := dailyBranch_activity bh (hourOf (date + 1800 * (j : Int))) g2
  have hhr := clampHr_bounds
    ((dailyBranch bh (hourOf (date + 1800 * (j : Int))) g2).1.2.1.add
      (normalDraw nl (dailyBranch bh (hourOf (date + 1800 * (j : Int))) g2).2).1)
  have hhrv := clampHrv_bound (dailyBranch bh (hourOf (date + 1800 * (j : Int))) g2).1.2.2
  refine ⟨validate_record_generated _ _ _ _ _ hact hhr.1 hhr.2 hhrv, ?_, ?_, ?_, ?_⟩
  · exact ⟨_, rfl, hhr.1, hhr.2⟩
  · exact ⟨_, rfl, hhrv⟩
  · exact ⟨_, rfl, hact⟩
  · exact ⟨_, _, rfl, rfl⟩

theorem C10_witness :
    ((generate_daily_pattern 0 1 70 (Frac.ofInt 5) (fun _ => 0)).getD 0 []
        ∈ generate_daily_pattern 0 1 70 (Frac.ofInt 5) (fun _ => 0))
    ∧ (validate_record ((generate_daily_pattern 0 1 70 (Frac.ofInt 5) (fun _ => 0)).getD 0 [])
        = (true, Option.none)
    ∧ (∃ h, recGet ((generate_daily_pattern 0 1 70 (Frac.ofInt 5) (fun _ => 0)).getD 0 [])
          "heartRate" = some (Value.int h) ∧ 40 ≤ h ∧ h ≤ 200)
    ∧ (∃ v, recGet ((generate_daily_pattern 0 1 70 (Frac.ofInt 5) (fun _ => 0)).getD 0 [])
          "hrv" = some (Value.int v) ∧ 10 ≤ v)
    ∧ (∃ a, recGet ((generate_daily_pattern 0 1 70 (Frac.ofInt 5) (fun _ => 0)).getD 0 [])
          "activity" = some (Value.str a) ∧ a ∈ VALID_ACTIVITIES)
    ∧ (∃ tv tm, recGet ((generate_daily_pattern 0 1 70 (Frac.ofInt 5) (fun _ => 0)).getD 0 [])
          "timestamp" = some tv ∧ parseTimestamp tv = some tm)) :=
  ⟨by decide,
   C10_daily_conformant 0 1 70 (Frac.ofInt 5) (fun _ => 0)
     ((generate_daily_pattern 0 1 70 (Frac.ofInt 5) (fun _ => 0)).getD 0 []) (by decide)⟩

theorem Frac.add_den_pos {a b : Frac} (ha : 0 < a.den) (hb : 0 < b.den) :
    0 < (a.add b).den := by
  unfold Frac.add
  exact mul_pos ha hb

theorem Frac.sub_den_pos {a b : Frac} (ha : 0 < a.den) (hb : 0 < b.den) :
    0 < (a.sub b).den := by
  unfold Frac.sub
  exact mul_pos ha hb

theorem Frac.mul_den_pos {a b : Frac} (ha : 0 < a.den) (hb : 0 < b.den) :
    0 < (a.mul b).den := by
  unfold Frac.mul
  exact mul_pos ha hb

theorem Frac.div_den_pos {a b : Frac} (ha : 0 < a.den) : 0 < (a.div b).den := by
  rcases lt_trichotomy b.num 0 with hn | hn | hn
  · rw [Frac.div_def_neg _ _ hn]
    dsimp only
    rw [neg_mul_eq_mul_neg]
    exact mul_pos ha (by omega)
  · rw [Frac.div_def_zero _ _ hn]
    norm_num
  · rw [Frac.div_def_pos _ _ hn]
    exact mul_pos ha hn

theorem Frac.toRat_ofInt (n : Int) : (Frac.ofInt n).toRat = (n : Rat) := by
  unfold Frac.ofInt Frac.toRat
  norm_num

theorem Frac.toRat_add {a b : Frac} (ha : a.den ≠ 0) (hb : b.den ≠ 0) :
    (a.add b).toRat = a.toRat + b.toRat := by
  unfold Frac.add Frac.toRat
  dsimp only
  have ha' : (a.den : Rat) ≠ 0 := Int.cast_ne_zero.mpr ha
  have hb' : (b.den : Rat) ≠ 0 := Int.cast_ne_zero.mpr hb
  push_cast
  field_simp

theorem Frac.toRat_sub {a b : Frac} (ha : a.den ≠ 0) (hb : b.den ≠ 0) :
    (a.sub b).toRat = a.toRat - b.toRat := by
  unfold Frac.sub Frac.toRat
  dsimp only
  have ha' : (a.den : Rat) ≠ 0 := Int.cast_ne_zero.mpr ha
  have hb' : (b.den : Rat) ≠ 0 := Int.cast_ne_zero.mpr hb
  push_cast
  field_simp
  ring

theorem Frac.toRat_mul {a b : Frac} (ha : a.den ≠ 0) (hb : b.den ≠ 0) :
    (a.mul b).toRat = a.toRat * b.toRat := by
  unfold Frac.mul Frac.toRat
  dsimp only
  have ha' : (a.den : Rat) ≠ 0 := Int.cast_ne_zero.mpr ha
  have hb' : (b.den : Rat) ≠ 0 := Int.cast_ne_zero.mpr hb
  push_cast
  field_simp

theorem Frac.toRat_sq {a : Frac} (ha : a.den ≠ 0) : (a.sq).toRat = a.toRat ^ 2 := by
  show (a.mul a).toRat = a.toRat ^ 2
  rw [Frac.toRat_mul ha ha]
  ring

theorem Frac.toRat_div {a b : Frac} (ha : a.den ≠ 0) (hb : b.den ≠ 0) :
    (a.div b).toRat = a.toRat / b.toRat := by
  have ha' : (a.den : Rat) ≠ 0 := Int.cast_ne_zero.mpr ha
  have hb' : (b.den : Rat) ≠ 0 := Int.cast_ne_zero.mpr hb
  rcases lt_trichotomy b.num 0 with hn | hn | hn
  · rw [Frac.div_def_neg _ _ hn]
    unfold Frac.toRat
    dsimp only
    have hn' : (b.num : Rat) ≠ 0 := Int.cast_ne_zero.mpr (by omega)
    push_cast
    field_simp
  · rw [Frac.div_def_zero _ _ hn]
    unfold Frac.toRat
    dsimp only
    rw [hn]
    push_cast
    simp
  · rw [Frac.div_def_pos _ _ hn]
    unfold Frac.toRat
    dsimp only
    have hn' : (b.num : Rat) ≠ 0 := Int.cast_ne_zero.mpr (by omega)
    push_cast
    field_simp

theorem Frac.lt_iff_toRat {a b : Frac} (ha : 0 < a.den) (hb : 0 < b.den) :
    Frac.lt a b ↔ a.toRat < b.toRat := by
  unfold Frac.lt Frac.toRat
  rw [div_lt_div_iff₀ (by exact_mod_cast ha) (by exact_mod_cast hb)]
  constructor <;> intro h <;> exact_mod_cast h

theorem fracSum_den_pos (xs : List Frac) (h : ∀ x ∈ xs, 0 < x.den) :
    0 < (fracSum xs).den := by
  induction xs with
  | nil => norm_num [fracSum, Frac.zero]
  | cons x l ih =>
    have hstep : fracSum (x :: l) = x.add (fracSum l) := rfl
    rw [hstep]
    exact Frac.add_den_pos (h x (by simp)) (ih (fun y hy => h y (by simp [hy])))

theorem fracSum_toRat (xs : List Frac) (h : ∀ x ∈ xs, 0 < x.den) :
    (fracSum xs).toRat = (xs.map Frac.toRat).sum := by
  induction xs with
  | nil => norm_num [fracSum, Frac.zero, Frac.toRat]
  | cons x l ih =>
    have hstep : fracSum (x :: l) = x.add (fracSum l) := rfl
    rw [hstep, Frac.toRat_add (by have := h x (by simp); omega)
      (by have := fracSum_den_pos l (fun y hy => h y (by simp [hy])); omega),
      List.map_cons, List.sum_cons, ih (fun y hy => h y (by simp [hy]))]

theorem fracMean_den_pos (xs : List Frac) (h : ∀ x ∈ xs, 0 < x.den) :
    0 < (fracMean xs).den := by
  unfold fracMean
  exact Frac.div_den_pos (fracSum_den_pos xs h)

theorem fracMean_toRat (xs : List Frac) (h : ∀ x ∈ xs, 0 < x.den) :
    (fracMean xs).toRat = (xs.map Frac.toRat).sum / (xs.length : Rat) := by
  unfold fracMean
  rw [Frac.toRat_div (by have := fracSum_den_pos xs h; omega) (by norm_num [Frac.ofInt]),
    fracSum_toRat xs h, Frac.toRat_ofInt]
  norm_num

theorem fracSqDev_den_pos (xs : List Frac) (h : ∀ x ∈ xs, 0 < x.den) :
    0 < (fracSqDev xs).den := by
  unfold fracSqDev
  apply fracSum_den_pos
  intro y hy
  rw [List.mem_map] at hy
  obtain ⟨x, hx, rfl⟩ := hy
  show 0 < ((x.sub (fracMean xs)).mul (x.sub (fracMean xs))).den
  exact Frac.mul_den_pos (Frac.sub_den_pos (h x hx) (fracMean_den_pos xs h))
    (Frac.sub_den_pos (h x hx) (fracMean_den_pos xs h))

theorem fracSqDev_toRat (xs : List Frac) (h : ∀ x ∈ xs, 0 < x.den) :
    (fracSqDev xs).toRat
      = ((xs.map Frac.toRat).map
          (fun y => (y - (xs.map Frac.toRat).sum / (xs.length : Rat)) ^ 2)).sum := by
  unfold fracSqDev
  rw [fracSum_toRat _ (by
    intro y hy
    rw [List.mem_map] at hy
    obtain ⟨x, hx, rfl⟩ := hy
    show 0 < ((x.sub (fracMean xs)).mul (x.sub (fracMean xs))).den
    exact Frac.mul_den_pos (Frac.sub_den_pos (h x hx) (fracMean_den_pos xs h))
      (Frac.sub_den_pos (h x hx) (fracMean_den_pos xs h)))]
  rw [List.map_map, List.map_map]
  congr 1
  apply List.map_congr_left
  intro x hx
  simp only [Function.comp_apply]
  rw [Frac.toRat_sq (by
      have := Frac.sub_den_pos (h x hx) (fracMean_den_pos xs h)
      omega),
    Frac.toRat_sub (by have := h x hx; omega) (by have := fracMean_den_pos xs h; omega),
    fracMean_toRat xs h]

theorem popVar_den_pos (xs : List Frac) (h : ∀ x ∈ xs, 0 < x.den) :
    0 < (popVar xs).den := by
  unfold popVar
  exact Frac.div_den_pos (fracSqDev_den_pos xs h)

theorem popVar_toRat (xs : List Frac) (h : ∀ x ∈ xs, 0 < x.den) :
    (popVar xs).toRat
      = ((xs.map Frac.toRat).map
          (fun y => (y - (xs.map Frac.toRat).sum / (xs.length : Rat)) ^ 2)).sum
        / (xs.length : Rat) := by
  unfold popVar
  rw [Frac.toRat_div (by have := fracSqDev_den_pos xs h; omega) (by norm_num [Frac.ofInt]),
    fracSqDev_toRat xs h, Frac.toRat_ofInt]
  norm_num

theorem anomalyFlag_iff (xs : List Frac) (hwf : ∀ x ∈ xs, 0 < x.den) (i : Nat)
    (hi : i < xs.length) :
    (Frac.lt (Frac.ofInt 4) ((zscoreSq xs).getD i Frac.zero)
      ↔ 4 * ((xs.map Frac.toRat).map
            (fun y => (y - (xs.map Frac.toRat).sum / ((xs.map Frac.toRat).length : Rat)) ^ 2)).sum
          < (((xs.map Frac.toRat).length : Rat))
            * ((xs.map Frac.toRat).getD i 0
                - (xs.map Frac.toRat).sum / ((xs.map Frac.toRat).length : Rat)) ^ 2) := by
  have hzlen : i < (zscoreSq xs).length := by unfold zscoreSq; simpa
  have hgz : (zscoreSq xs).getD i Frac.zero
      = ((xs[i].sub (fracMean xs)).sq).div (popVar xs) := by
    rw [List.getD_eq_getElem _ _ hzlen]
    unfold zscoreSq
    rw [List.getElem_map]
  have hqi : (xs.map Frac.toRat).getD i 0 = Frac.toRat xs[i] := by
    rw [List.getD_eq_getElem _ _ (by simpa), List.getElem_map]
  have hximem : xs[i] ∈ xs := List.getElem_mem hi
  have hdsub : 0 < ((xs[i]).sub (fracMean xs)).den :=
    Frac.sub_den_pos (hwf _ hximem) (fracMean_den_pos xs hwf)
  have hdsq : 0 < (((xs[i]).sub (fracMean xs)).sq).den := by
    show 0 < (((xs[i]).sub (fracMean xs)).mul ((xs[i]).sub (fracMean xs))).den
    exact Frac.mul_den_pos hdsub hdsub
  have hdz : 0 < ((((xs[i]).sub (fracMean xs)).sq).div (popVar xs)).den :=
    Frac.div_den_pos hdsq
  rw [hgz, hqi, List.length_map]
  rw [Frac.lt_iff_toRat (by norm_num [Frac.ofInt]) hdz, Frac.toRat_ofInt]
  rw [Frac.toRat_div (by omega) (by have := popVar_den_pos xs hwf; omega)]
  rw [Frac.toRat_sq (by omega),
    Frac.toRat_sub (by have := hwf _ hximem; omega) (by have := fracMean_den_pos xs hwf; omega)]
  rw [fracMean_toRat xs hwf, popVar_toRat xs hwf]
  push_cast
  set n : Rat := (xs.length : Rat) with hn
  set mu : Rat := (xs.map Frac.toRat).sum / n with hmu
  set dev : Rat := Frac.toRat xs[i] - mu with hdev
  set SS : Rat := ((xs.map Frac.toRat).map (fun y => (y - mu) ^ 2)).sum with hSS
  have hnpos : (0 : Rat) < n := by
    rw [hn]
    exact_mod_cast Nat.pos_of_ne_zero (by omega)
  have hSSnonneg : (0 : Rat) ≤ SS := by
    rw [hSS]
    apply List.sum_nonneg
    intro y hy
    rw [List.mem_map] at hy
    obtain ⟨z, _, rfl⟩ := hy
    positivity
  have hdevsq : dev ^ 2 ≤ SS := by
    rw [hSS]
    apply List.single_le_sum
    · intro y hy
      rw [List.mem_map] at hy
      obtain ⟨z, _, rfl⟩ := hy
      positivity
    · rw [List.mem_map]
      exact ⟨Frac.toRat xs[i], by rw [List.mem_map]; exact ⟨xs[i], hximem, rfl⟩, rfl⟩
  rcases eq_or_lt_of_le hSSnonneg with hSS0 | hSSpos
  · constructor
    · intro hcon
      rw [← hSS0, zero_div, div_zero] at hcon
      norm_num at hcon
    · intro hcon
      rw [← hSS0] at hcon hdevsq
      exfalso
      nlinarith [sq_nonneg dev, hnpos]
  · rw [lt_div_iff₀ (div_pos hSSpos hnpos), ← mul_div_assoc, div_lt_iff₀ hnpos,
      mul_comm (dev ^ 2) n]

theorem anomalyIdx_eq_popFlaggedQ (xs : List Frac) (hwf : ∀ x ∈ xs, 0 < x.den) :
    anomalyIdx xs = popFlaggedQ (xs.map Frac.toRat) := by
  unfold anomalyIdx popFlaggedQ
  rw [List.length_map]
  apply List.filter_congr
  intro i hi
  rw [List.mem_range] at hi
  rw [decide_eq_decide]
  have h := anomalyFlag_iff xs hwf i hi
  rw [List.length_map] at h
  exact h

/-- C5 (amended): for a batch with a timestamp column and a numeric
heartRate column of at least two records, the anomaly detector flags exactly
the records whose squared deviation satisfies n·(xᵢ − μ)² > 4·Σⱼ(xⱼ − μ)²
over the batch's rational heart-rate values — that is, |z| > 2.0 for the
z-score computed with the population standard deviation (ddof = 0, the
`scipy.stats.zscore` default), not the sample (n−1) standard deviation. -/
theorem C5_population_zscore (df : DataFrame) (col ts : List Value) (hrs : List Frac)
    (hcol : getCol df "heartRate" = some col)
    (hfr : colFracs? col = some hrs)
    (hts : getCol df "timestamp" = some ts)
    (hwf : ∀ x ∈ hrs, 0 < x.den)
    (h2 : 2 ≤ hrs.length)
    (hlen : df.len = hrs.length) :
    (analyze_data df).toOption.isSome = true
    ∧ anomalyIdx hrs = popFlaggedQ (hrs.map Frac.toRat)
    ∧ (anomalyBlockOf df).map (fun a => a.count)
        = some (popFlaggedQ (hrs.map Frac.toRat)).length
    ∧ (anomalyBlockOf df).map (fun a => a.records.map (fun e => e.1))
        = some ((popFlaggedQ (hrs.map Frac.toRat)).map (fun i => ts.getD i Value.none)) := by
  have hidx := anomalyIdx_eq_popFlaggedQ hrs hwf
  have hn0 : ¬ df.len = 0 := by omega
  cases hcase : anomalyIdx hrs with
  | nil =>
    have hA : anomalySection df = Except.ok
        (some { count := 0
                percentage := ((Frac.ofInt 0).div (Frac.ofInt df.len)).mul (Frac.ofInt 100)
                threshold := Frac.ofInt 2
                records := [] }, some hrs,
         setCol df "hr_zscore" ((zscoreSq hrs).map Value.num)) := by
      unfold anomalySection
      rw [hcol]
      simp only [hfr, hcase, hn0, if_false]
    rw [← hidx, hcase]
    unfold anomalyBlockOf reportOf analyze_data
    rw [hA]
    exact ⟨rfl, rfl, rfl, rfl⟩
  | cons j idx =>
    have hA : anomalySection df = Except.ok
        (some { count := (j :: idx).length
                percentage := ((Frac.ofInt (j :: idx).length).div (Frac.ofInt df.len)).mul (Frac.ofInt 100)
                threshold := Frac.ofInt 2
                records := (j :: idx).map (fun i =>
                  (ts.getD i Value.none, hrs.getD i Frac.zero,
                   (zscoreSq hrs).getD i Frac.zero)) }, some hrs,
         setCol df "hr_zscore" ((zscoreSq hrs).map Value.num)) := by
      unfold anomalySection
      rw [hcol]
      simp only [hfr, hcase, hts, hn0, if_false]
    rw [← hidx, hcase]
    unfold anomalyBlockOf reportOf analyze_data
    rw [hA]
    refine ⟨rfl, rfl, rfl, ?_⟩
    show some (((j :: idx).map (fun i =>
        (ts.getD i Value.none, hrs.getD i Frac.zero,
         (zscoreSq hrs).getD i Frac.zero))).map (fun e => e.1))
      = some ((j :: idx).map (fun i => ts.getD i Value.none))
    rw [List.map_map]
    rfl

theorem C5_witness :
    (getCol dfZscoreCex "heartRate"
        = some [Value.int 70, Value.int 71, Value.int 71, Value.int 71, Value.int 71, Value.int 73]
      ∧ colFracs? [Value.int 70, Value.int 71, Value.int 71, Value.int 71, Value.int 71, Value.int 73]
        = some hrsZscoreCex
      ∧ (∀ x ∈ hrsZscoreCex, 0 < x.den)
      ∧ 2 ≤ hrsZscoreCex.length
      ∧ dfZscoreCex.len = hrsZscoreCex.length)
    ∧ ((analyze_data dfZscoreCex).toOption.isSome = true
      ∧ anomalyIdx hrsZscoreCex = popFlaggedQ (hrsZscoreCex.map Frac.toRat)
      ∧ (anomalyBlockOf dfZscoreCex).map (fun a => a.count)
          = some (popFlaggedQ (hrsZscoreCex.map Frac.toRat)).length
      ∧ (anomalyBlockOf dfZscoreCex).map (fun a => a.records.map (fun e => e.1))
          = some ((popFlaggedQ (hrsZscoreCex.map Frac.toRat)).map (fun i =>
              [Value.time 0, Value.time 300, Value.time 600, Value.time 900,
               Value.time 1200, Value.time 1500].getD i Value.none))) :=
  ⟨⟨by decide, by decide, by decide, by decide, by decide⟩,
   C5_population_zscore dfZscoreCex
     [Value.int 70, Value.int 71, Value.int 71, Value.int 71, Value.int 71, Value.int 73]
     [Value.time 0, Value.time 300, Value.time 600, Value.time 900,
      Value.time 1200, Value.time 1500]
     hrsZscoreCex (by decide) (by decide) (by decide) (by decide) (by decide) (by decide)⟩

/-- C5 (counterexample): on heart rates [70, 71, 71, 71, 71, 73] the
implemented detector (population z-score, ddof 0) flags the last record
(z ≈ 2.04), while the claim's rule — z-scores from the sample standard
deviation with the n−1 denominator — flags nothing (z ≈ 1.86): the claimed
flag set differs from the code's on this batch. -/
theorem C5_counterexample :
    (anomalyBlockOf dfZscoreCex).map (fun a => a.count) = some 1
    ∧ anomalyIdx hrsZscoreCex = [5]
    ∧ sampleFlagged hrsZscoreCex = []
    ∧ (1 : Nat) ≠ 0 := by
  decide
